import Mathlib

/-!
# ctfd_challenge resource: a shallow embedding of `provider/challenge_resource.go`

The Go code is embedded as pure Lean functions.

* A Terraform value (`types.String`, `types.Int64`) is null, unknown or known.
* A Go pointer (`*bool`, `*int`, `*string`) is an `Option`; a Go slice that may be
  `nil` is an `Option (List _)`.
* A Go `panic` is an explicit outcome (`Except String` for the pure helpers, `Run.panic`
  for the operations that talk to the remote).
* The remote client is a record of state-passing functions over an arbitrary remote
  state `σ`; every call the provider issues is appended to a call log.
* `diag.Diagnostics` is a list; a parameter of that type is a Go slice passed by value.
-/

deriving instance DecidableEq for Except

/-! ## Terraform framework values -/

namespace basetypes

/-- The Go type `types.String` (an alias of `basetypes.StringValue`). -/
inductive StringValue where
  | null
  | unknown
  | known (value : String)
  deriving DecidableEq, Repr

/-- The Go type `types.Int64` (an alias of `basetypes.Int64Value`); Go `int` and `int64`
are both 64 bits wide on the supported platforms and are embedded as `Int`. -/
inductive Int64Value where
  | null
  | unknown
  | known (value : Int)
  deriving DecidableEq, Repr

namespace StringValue

def IsNull : StringValue → Bool
  | null => true
  | _ => false

def IsUnknown : StringValue → Bool
  | unknown => true
  | _ => false

/-- Framework `Equal`: same state, and for known values the same string. -/
def Equal : StringValue → StringValue → Bool
  | null, null => true
  | unknown, unknown => true
  | known a, known b => decide (a = b)
  | _, _ => false

/-- Framework `ValueString`: the known string, the empty string otherwise. -/
def ValueString : StringValue → String
  | known v => v
  | _ => ""

/-- Framework `ValueStringPointer`: nil for null, a pointer to the value otherwise
(a pointer to the empty string for unknown). -/
def ValueStringPointer : StringValue → Option String
  | null => none
  | unknown => some ""
  | known v => some v

end StringValue

namespace Int64Value

def IsNull : Int64Value → Bool
  | null => true
  | _ => false

def IsUnknown : Int64Value → Bool
  | unknown => true
  | _ => false

/-- Framework `ValueInt64`: the known integer, zero otherwise. -/
def ValueInt64 : Int64Value → Int
  | known v => v
  | _ => 0

end Int64Value

end basetypes

namespace types

def StringValue (v : String) : basetypes.StringValue := basetypes.StringValue.known v

def StringNull : basetypes.StringValue := basetypes.StringValue.null

def StringUnknown : basetypes.StringValue := basetypes.StringValue.unknown

def Int64Value (v : Int) : basetypes.Int64Value := basetypes.Int64Value.known v

def Int64Null : basetypes.Int64Value := basetypes.Int64Value.null

end types

/-! ## Diagnostics -/

namespace diag

inductive Severity where
  | Error
  | Warning
  deriving DecidableEq, Repr

structure Diagnostic where
  Severity : Severity
  Summary : String
  Detail : String
  deriving DecidableEq, Repr

/-- The Go type `diag.Diagnostics`, a slice of diagnostics. -/
abbrev Diagnostics := List Diagnostic

def NewErrorDiagnostic (summary detail : String) : Diagnostic :=
  { Severity := Severity.Error, Summary := summary, Detail := detail }

namespace Diagnostics

/-- Framework `Append`: adds each diagnostic that is not already contained. -/
def Append (diags : Diagnostics) : List Diagnostic → Diagnostics
  | [] => diags
  | d :: rest => Append (if d ∈ diags then diags else diags ++ [d]) rest

def AddError (diags : Diagnostics) (summary detail : String) : Diagnostics :=
  Append diags [NewErrorDiagnostic summary detail]

def HasError (diags : Diagnostics) : Bool :=
  diags.any (fun d => decide (d.Severity = Severity.Error))

end Diagnostics

end diag

/-! ## Go standard library: `strconv` -/

namespace strconv

def isDigit (c : Char) : Bool := decide ('0' ≤ c) && decide (c ≤ '9')

/-- Value of a run of decimal digits, most significant first, continuing from `acc`. -/
def digitsValue : List Char → Nat → Nat
  | [], acc => acc
  | c :: rest, acc => digitsValue rest (acc * 10 + (c.toNat - 48))

/-- An unsigned decimal numeral: a non-empty run of digits. -/
def parseUnsigned (cs : List Char) : Option Nat :=
  if cs ≠ [] ∧ cs.all isDigit then some (digitsValue cs 0) else none

def maxInt : Int := 9223372036854775807

def minInt : Int := -9223372036854775808

/-- Go `strconv.Atoi`: an optional sign followed by decimal digits. The value is 0 with
an error on a syntax error, and the nearest bound with an error when out of range. -/
def Atoi (s : String) : Int × Option String :=
  match s.data with
  | '-' :: cs =>
    match parseUnsigned cs with
    | none => (0, some "invalid syntax")
    | some n => if (n : Int) ≤ 9223372036854775808 then (-(n : Int), none)
                else (minInt, some "value out of range")
  | '+' :: cs =>
    match parseUnsigned cs with
    | none => (0, some "invalid syntax")
    | some n => if (n : Int) ≤ maxInt then ((n : Int), none)
                else (maxInt, some "value out of range")
  | cs =>
    match parseUnsigned cs with
    | none => (0, some "invalid syntax")
    | some n => if (n : Int) ≤ maxInt then ((n : Int), none)
                else (maxInt, some "value out of range")

def digitChar (d : Nat) : Char := Char.ofNat (48 + d)

/-- Decimal digits of `n`, most significant first, in front of `acc`. -/
def formatDigits : Nat → Nat → List Char → List Char
  | 0, _, acc => acc
  | fuel + 1, n, acc =>
    if n < 10 then digitChar n :: acc
    else formatDigits fuel (n / 10) (digitChar (n % 10) :: acc)

/-- Go `strconv.Itoa`: the canonical decimal string of an integer. -/
def Itoa (i : Int) : String :=
  match i with
  | Int.ofNat n => String.mk (formatDigits (n + 1) n [])
  | Int.negSucc n => String.mk ('-' :: formatDigits (n + 2) (n + 1) [])

end strconv

/-! ## Helpers of the `utils` package -/

namespace utils

/-- Modelled from the spec: `utils.Atoi` is not part of the available sources. The id
mapper turns the string form into an integer, and a parse failure is a programmer error
treated as fatal (a panic, here `Except.error`). -/
def Atoi (str : String) : Except String Int :=
  match strconv.Atoi str with
  | (i, none) => Except.ok i
  | (_, some err) => Except.error err

/-- Modelled from the spec: `utils.ToInt` is not part of the available sources. An
optional integer maps to presence or absence: a known value is present, an unset value
(null or unknown) is absent; zero is never used for absence. -/
def ToInt : basetypes.Int64Value → Option Int
  | basetypes.Int64Value.known v => some v
  | _ => none

/-- Modelled from the spec: `utils.ToIntOnDynamic` is not part of the available sources.
The dynamic-only scoring fields are sent for `type = dynamic` and are absent otherwise. -/
def ToIntOnDynamic (v : basetypes.Int64Value) (chalType : basetypes.StringValue) :
    Option Int :=
  if chalType.ValueString = "dynamic" then ToInt v else none

/-- Modelled from the spec: `utils.ToTFInt64` is not part of the available sources. An
absent remote integer is the null value, a present one is the known value. -/
def ToTFInt64 : Option Int → basetypes.Int64Value
  | none => types.Int64Null
  | some v => types.Int64Value v

/-- Modelled from the spec: `utils.ToTFString` is not part of the available sources. An
absent remote string is the null value, a present one is the known value. -/
def ToTFString : Option String → basetypes.StringValue
  | none => types.StringNull
  | some v => types.StringValue v

end utils

/-! ## Anonymization mapping -/

def BehaviorHidden : basetypes.StringValue := types.StringValue "hidden"

def BehaviorAnonymized : basetypes.StringValue := types.StringValue "anonymized"

def FunctionLinear : basetypes.StringValue := types.StringValue "linear"

def FunctionLogarithmic : basetypes.StringValue := types.StringValue "logarithmic"

/-- Go `GetAnon`: the `*bool` flag sent to the remote; `Except.error` is the panic. -/
def GetAnon (str : basetypes.StringValue) : Except String (Option Bool) :=
  if str.Equal BehaviorHidden then Except.ok none
  else if str.Equal BehaviorAnonymized then Except.ok (some true)
  else Except.error ("invalid anonymization value: " ++ str.ValueString)

/-- Go `FromAnon`: the behavior decoded from the remote flag; `Except.error` is the
panic. -/
def FromAnon (b : Option Bool) : Except String basetypes.StringValue :=
  match b with
  | none => Except.ok BehaviorHidden
  | some true => Except.ok BehaviorAnonymized
  | some false => Except.error "invalid anonymization value, got boolean false"

/-! ## The remote API (`go-ctfd/api`), as the resource uses it -/

namespace api

structure Requirements where
  Anonymize : Option Bool
  Prerequisites : List Int
  deriving DecidableEq, Repr

structure Challenge where
  ID : Int
  Name : String
  Category : String
  Description : String
  ConnectionInfo : Option String
  MaxAttempts : Option Int
  Function : Option String
  Value : Int
  Initial : Option Int
  Decay : Option Int
  Minimum : Option Int
  State : String
  Type_ : String
  NextID : Option Int
  deriving DecidableEq, Repr

structure PostChallengesParams where
  Name : String
  Category : String
  Description : String
  ConnectionInfo : Option String
  MaxAttempts : Option Int
  Function : Option String
  Value : Int
  Initial : Option Int
  Decay : Option Int
  Minimum : Option Int
  State : String
  Type_ : String
  NextID : Option Int
  Requirements : Option Requirements
  deriving DecidableEq, Repr

structure PatchChallengeParams where
  Name : String
  Category : String
  Description : String
  ConnectionInfo : Option String
  MaxAttempts : Option Int
  Function : Option String
  Value : Option Int
  Initial : Option Int
  Decay : Option Int
  Minimum : Option Int
  State : String
  NextID : Option Int
  Requirements : Option Requirements
  deriving DecidableEq, Repr

structure Tag where
  ID : Int
  Value : String
  deriving DecidableEq, Repr

structure Topic where
  ID : Int
  Value : String
  deriving DecidableEq, Repr

structure PostTagsParams where
  Challenge : Int
  Value : String
  deriving DecidableEq, Repr

structure PostTopicsParams where
  Challenge : Int
  Type_ : String
  Value : String
  deriving DecidableEq, Repr

structure DeleteTopicArgs where
  ID : String
  Type_ : String
  deriving DecidableEq, Repr

/-- The Go type `*api.Client`, seen from the resource: each operation reads and updates
the remote state `σ` and returns its result or a Go `error` (its message). -/
structure Client (σ : Type) where
  PostChallenges : PostChallengesParams → σ → Except String Challenge × σ
  GetChallenge : Int → σ → Except String Challenge × σ
  PatchChallenge : Int → PatchChallengeParams → σ → Except String Challenge × σ
  DeleteChallenge : Int → σ → Option String × σ
  GetChallengeRequirements : Int → σ → Except String (Option Requirements) × σ
  GetChallengeTags : Int → σ → Except String (List Tag) × σ
  PostTags : PostTagsParams → σ → Except String Tag × σ
  DeleteTag : String → σ → Option String × σ
  GetChallengeTopics : Int → σ → Except String (List Topic) × σ
  PostTopics : PostTopicsParams → σ → Except String Topic × σ
  DeleteTopic : DeleteTopicArgs → σ → Option String × σ

end api

/-- One remote call, as issued by the resource. -/
inductive Call where
  | PostChallenges (params : api.PostChallengesParams)
  | GetChallenge (id : Int)
  | PatchChallenge (id : Int) (params : api.PatchChallengeParams)
  | DeleteChallenge (id : Int)
  | GetChallengeRequirements (id : Int)
  | GetChallengeTags (id : Int)
  | PostTags (params : api.PostTagsParams)
  | DeleteTag (id : String)
  | GetChallengeTopics (id : Int)
  | PostTopics (params : api.PostTopicsParams)
  | DeleteTopic (args : api.DeleteTopicArgs)
  deriving DecidableEq, Repr

/-- The remote state together with the log of the calls issued so far, oldest first. -/
structure World (σ : Type) where
  remote : σ
  calls : List Call

/-- How an operation ends: it returns, or it panics. Either way the remote has seen the
calls logged in the world. -/
inductive Run (σ α : Type) where
  | ret (a : α) (w : World σ)
  | panic (msg : String) (w : World σ)

/-! ## The resource model -/

structure RequirementsSubresourceModel where
  Behavior : basetypes.StringValue
  Prerequisites : Option (List basetypes.StringValue)
  deriving DecidableEq, Repr

structure challengeResourceModel where
  ID : basetypes.StringValue
  Name : basetypes.StringValue
  Category : basetypes.StringValue
  Description : basetypes.StringValue
  ConnectionInfo : basetypes.StringValue
  MaxAttempts : basetypes.Int64Value
  Function : basetypes.StringValue
  Value : basetypes.Int64Value
  Decay : basetypes.Int64Value
  Minimum : basetypes.Int64Value
  State : basetypes.StringValue
  Type_ : basetypes.StringValue
  Next : basetypes.Int64Value
  Requirements : Option RequirementsSubresourceModel
  Tags : Option (List basetypes.StringValue)
  Topics : Option (List basetypes.StringValue)
  deriving DecidableEq, Repr

/-- Elements of a Go slice that may be nil: ranging over nil visits nothing. -/
def sliceElems {α : Type} : Option (List α) → List α
  | none => []
  | some xs => xs

namespace tfsdk

/-- What the framework hands to the resource as a plan or a state: `Get` decodes it into
the model and returns the diagnostics of the decoding. -/
structure Data where
  diags : diag.Diagnostics
  data : challengeResourceModel

end tfsdk

namespace resource

structure CreateRequest where
  Plan : tfsdk.Data

structure ReadRequest where
  State : tfsdk.Data

structure UpdateRequest where
  Plan : tfsdk.Data
  State : tfsdk.Data

/-- The response of an operation: its diagnostics, and the model written by `State.Set`
(`none` as long as `State.Set` has not been called). The three response types of the
framework have this same shape. -/
structure Response where
  Diagnostics : diag.Diagnostics
  State : Option challengeResourceModel

end resource

/-! ## Shared pieces of the operations -/

/-- The world after one more remote call. -/
def World.log {σ : Type} (w : World σ) (c : Call) (s : σ) : World σ :=
  { remote := s, calls := w.calls ++ [c] }

/-- How a loop with an early `return` ends: the operation returned from inside the loop
(with the diagnostics it had then), or the loop ran to its end. -/
inductive Loop (α : Type) where
  | returned (diags : diag.Diagnostics)
  | finished (acc : α)

/-- The block `reqs := ...` of Create and Update: prerequisites are parsed with
`strconv.Atoi`, its error dropped; `GetAnon` may panic. -/
def encodeRequirements (r : Option RequirementsSubresourceModel) :
    Except String (Option api.Requirements) :=
  match r with
  | none => Except.ok none
  | some r =>
    let preqs := (sliceElems r.Prerequisites).map (fun preq => (strconv.Atoi preq.ValueString).1)
    match GetAnon r.Behavior with
    | Except.error msg => Except.error msg
    | Except.ok anon => Except.ok (some { Anonymize := anon, Prerequisites := preqs })

/-- The loop `for _, tag := range data.Tags` of Create and Update: one `PostTags` per
tag, in order; the first failure adds a "Client Error" and returns. `detail` builds the
message from the error. -/
def postTagsLoop {σ : Type} (client : api.Client σ) (ID : basetypes.StringValue)
    (detail : String → String) :
    List basetypes.StringValue → List basetypes.StringValue → diag.Diagnostics → World σ →
      Run σ (Loop (List basetypes.StringValue))
  | [], acc, _, w => Run.ret (Loop.finished acc) w
  | tag :: rest, acc, diags, w =>
    match utils.Atoi ID.ValueString with
    | Except.error msg => Run.panic msg w
    | Except.ok cid =>
      match client.PostTags { Challenge := cid, Value := tag.ValueString } w.remote with
      | (Except.error err, s) =>
        Run.ret (Loop.returned (diag.Diagnostics.AddError diags "Client Error" (detail err)))
          (w.log (Call.PostTags { Challenge := cid, Value := tag.ValueString }) s)
      | (Except.ok _, s) =>
        postTagsLoop client ID detail rest (acc ++ [tag]) diags
          (w.log (Call.PostTags { Challenge := cid, Value := tag.ValueString }) s)

/-- The loop `for _, topic := range data.Topics` of Create and Update. -/
def postTopicsLoop {σ : Type} (client : api.Client σ) (ID : basetypes.StringValue)
    (detail : String → String) :
    List basetypes.StringValue → List basetypes.StringValue → diag.Diagnostics → World σ →
      Run σ (Loop (List basetypes.StringValue))
  | [], acc, _, w => Run.ret (Loop.finished acc) w
  | topic :: rest, acc, diags, w =>
    match utils.Atoi ID.ValueString with
    | Except.error msg => Run.panic msg w
    | Except.ok cid =>
      match client.PostTopics
          { Challenge := cid, Type_ := "challenge", Value := topic.ValueString } w.remote with
      | (Except.error err, s) =>
        Run.ret (Loop.returned (diag.Diagnostics.AddError diags "Client Error" (detail err)))
          (w.log (Call.PostTopics
            { Challenge := cid, Type_ := "challenge", Value := topic.ValueString }) s)
      | (Except.ok _, s) =>
        postTopicsLoop client ID detail rest (acc ++ [topic]) diags
          (w.log (Call.PostTopics
            { Challenge := cid, Type_ := "challenge", Value := topic.ValueString }) s)

/-- The loop `for _, tag := range challTags` of Update: one `DeleteTag` per listed tag,
in order; the first failure adds a "Client Error" and returns. -/
def deleteTagsLoop {σ : Type} (client : api.Client σ) (ID : basetypes.StringValue) :
    List api.Tag → diag.Diagnostics → World σ → Run σ (Loop Unit)
  | [], _, w => Run.ret (Loop.finished ()) w
  | tag :: rest, diags, w =>
    match client.DeleteTag (strconv.Itoa tag.ID) w.remote with
    | (some err, s) =>
      Run.ret (Loop.returned (diag.Diagnostics.AddError diags "Client Error"
          ("Unable to delete tag " ++ strconv.Itoa tag.ID ++ " of challenge "
            ++ ID.ValueString ++ ", got error: " ++ err)))
        (w.log (Call.DeleteTag (strconv.Itoa tag.ID)) s)
    | (none, s) =>
      deleteTagsLoop client ID rest diags (w.log (Call.DeleteTag (strconv.Itoa tag.ID)) s)

/-- The loop `for _, topic := range challTopics` of Update. -/
def deleteTopicsLoop {σ : Type} (client : api.Client σ) (ID : basetypes.StringValue) :
    List api.Topic → diag.Diagnostics → World σ → Run σ (Loop Unit)
  | [], _, w => Run.ret (Loop.finished ()) w
  | topic :: rest, diags, w =>
    match client.DeleteTopic { ID := strconv.Itoa topic.ID, Type_ := "challenge" } w.remote with
    | (some err, s) =>
      Run.ret (Loop.returned (diag.Diagnostics.AddError diags "Client Error"
          ("Unable to delete topic " ++ strconv.Itoa topic.ID ++ " of challenge "
            ++ ID.ValueString ++ ", got error: " ++ err)))
        (w.log (Call.DeleteTopic { ID := strconv.Itoa topic.ID, Type_ := "challenge" }) s)
    | (none, s) =>
      deleteTopicsLoop client ID rest diags
        (w.log (Call.DeleteTopic { ID := strconv.Itoa topic.ID, Type_ := "challenge" }) s)

/-- The statement `if data.Tags != nil then data.Tags = tags` (and its twin for topics):
a nil slice stays nil. -/
def keepNil (old : Option (List basetypes.StringValue)) (new : List basetypes.StringValue) :
    Option (List basetypes.StringValue) :=
  match old with
  | none => none
  | some _ => some new

/-! ## Create -/

namespace challengeResource

/-- The block "Configuration checks" of Create: the model and the diagnostics after it. -/
def Create.configurationChecks (data : challengeResourceModel) (diags : diag.Diagnostics) :
    challengeResourceModel × diag.Diagnostics :=
  if data.Type_.Equal (types.StringValue "dynamic") then
    let diags1 :=
      if data.Decay.IsNull then
        diag.Diagnostics.AddError diags "Configuration error"
          "decay must be set for dynamic challenges"
      else diags
    let diags2 :=
      if data.Minimum.IsNull then
        diag.Diagnostics.AddError diags1 "Configuration error"
          "minimum must be set for dynamic challenges"
      else diags1
    if data.Function.IsNull || data.Function.IsUnknown then
      ({ data with Function := FunctionLogarithmic }, diags2)
    else (data, diags2)
  else
    if data.Function.IsNull || data.Function.IsUnknown then
      ({ data with Function := types.StringNull }, diags)
    else (data, diags)

/-- The parameters of the `PostChallenges` call of Create. -/
def Create.params (data : challengeResourceModel) (reqs : Option api.Requirements) :
    api.PostChallengesParams :=
  { Name := data.Name.ValueString
    Category := data.Category.ValueString
    Description := data.Description.ValueString
    ConnectionInfo := data.ConnectionInfo.ValueStringPointer
    MaxAttempts := utils.ToInt data.MaxAttempts
    Function := data.Function.ValueStringPointer
    Value := data.Value.ValueInt64
    Initial := utils.ToIntOnDynamic data.Value data.Type_
    Decay := utils.ToIntOnDynamic data.Decay data.Type_
    Minimum := utils.ToIntOnDynamic data.Minimum data.Type_
    State := data.State.ValueString
    Type_ := data.Type_.ValueString
    NextID := utils.ToInt data.Next
    Requirements := reqs }

/-- Go `(*challengeResource).Create`. `resp` is the response as the framework hands it
over; `State.Set` stores the model and reports nothing. -/
def Create {σ : Type} (client : api.Client σ) (req : resource.CreateRequest)
    (resp : resource.Response) (w : World σ) : Run σ resource.Response :=
  let diags0 := diag.Diagnostics.Append resp.Diagnostics req.Plan.diags
  if diag.Diagnostics.HasError diags0 then Run.ret { resp with Diagnostics := diags0 } w
  else
    let data1 := (Create.configurationChecks req.Plan.data diags0).1
    let diags1 := (Create.configurationChecks req.Plan.data diags0).2
    if diag.Diagnostics.HasError diags1 then Run.ret { resp with Diagnostics := diags1 } w
    else
      match encodeRequirements data1.Requirements with
      | Except.error msg => Run.panic msg w
      | Except.ok reqs =>
        match client.PostChallenges (Create.params data1 reqs) w.remote with
        | (Except.error err, s) =>
          Run.ret
            { resp with Diagnostics := (diag.Diagnostics.AddError diags1 "Client Error"
                ("Unable to create challenge, got error: " ++ err)) }
            (w.log (Call.PostChallenges (Create.params data1 reqs)) s)
        | (Except.ok res, s) =>
          let data2 : challengeResourceModel :=
            { data1 with
              ID := types.StringValue (strconv.Itoa res.ID)
              Decay := utils.ToTFInt64 res.Decay
              Minimum := utils.ToTFInt64 res.Minimum }
          match postTagsLoop client data2.ID
              (fun err => "Unable to create tags, got error: " ++ err)
              (sliceElems data2.Tags) [] diags1
              (w.log (Call.PostChallenges (Create.params data1 reqs)) s) with
          | Run.panic msg w2 => Run.panic msg w2
          | Run.ret (Loop.returned d) w2 => Run.ret { resp with Diagnostics := d } w2
          | Run.ret (Loop.finished challTags) w2 =>
            let data3 : challengeResourceModel :=
              { data2 with Tags := keepNil data2.Tags challTags }
            match postTopicsLoop client data3.ID
                (fun err => "Unable to create topic, got error: " ++ err)
                (sliceElems data3.Topics) [] diags1 w2 with
            | Run.panic msg w3 => Run.panic msg w3
            | Run.ret (Loop.returned d) w3 => Run.ret { resp with Diagnostics := d } w3
            | Run.ret (Loop.finished challTopics) w3 =>
              let data4 : challengeResourceModel :=
                { data3 with Topics := keepNil data3.Topics challTopics }
              if diag.Diagnostics.HasError diags1 then
                Run.ret { resp with Diagnostics := diags1 } w3
              else Run.ret { Diagnostics := diags1, State := some data4 } w3

end challengeResource

/-! ## Read -/

/-- The scalar fields Read copies from the remote challenge, then the `switch res.Type`
that picks the source of `value`. -/
def challengeResourceModel.decodeScalars (chall : challengeResourceModel)
    (res : api.Challenge) : challengeResourceModel :=
  let chall1 : challengeResourceModel :=
    { chall with
      Name := types.StringValue res.Name
      Category := types.StringValue res.Category
      Description := types.StringValue res.Description
      ConnectionInfo := utils.ToTFString res.ConnectionInfo
      MaxAttempts := utils.ToTFInt64 res.MaxAttempts
      Function := utils.ToTFString res.Function
      Decay := utils.ToTFInt64 res.Decay
      Minimum := utils.ToTFInt64 res.Minimum
      State := types.StringValue res.State
      Type_ := types.StringValue res.Type_
      Next := utils.ToTFInt64 res.NextID }
  if res.Type_ = "standard" then { chall1 with Value := types.Int64Value res.Value }
  else if res.Type_ = "dynamic" then { chall1 with Value := utils.ToTFInt64 res.Initial }
  else chall1

/-- The block that decodes the remote requirements in Read; `FromAnon` may panic. -/
def decodeRequirements (resReqs : Option api.Requirements) :
    Except String (Option RequirementsSubresourceModel) :=
  match resReqs with
  | none => Except.ok none
  | some r =>
    let challPreqs := r.Prerequisites.map (fun req => types.StringValue (strconv.Itoa req))
    match FromAnon r.Anonymize with
    | Except.error msg => Except.error msg
    | Except.ok behavior =>
      Except.ok (some { Behavior := behavior, Prerequisites := some challPreqs })

/-- Go `(*challengeResourceModel).Read`. The receiver is a pointer, so the updated model
is returned; `diags` is a slice passed by value, so the diagnostics added here live in
the callee's own variable, returned as the second component. -/
def challengeResourceModel.Read {σ : Type} (chall : challengeResourceModel)
    (client : api.Client σ) (diags : diag.Diagnostics) (w : World σ) :
    Run σ (challengeResourceModel × diag.Diagnostics) :=
  match utils.Atoi chall.ID.ValueString with
  | Except.error msg => Run.panic msg w
  | Except.ok id0 =>
    match client.GetChallenge id0 w.remote with
    | (Except.error err, s) =>
      Run.ret
        (chall, diag.Diagnostics.AddError diags "Client Error"
          ("Unable to read challenge " ++ chall.ID.ValueString ++ ", got error: " ++ err))
        (w.log (Call.GetChallenge id0) s)
    | (Except.ok res, s) =>
      let chall1 := chall.decodeScalars res
      match utils.Atoi chall1.ID.ValueString with
      | Except.error msg => Run.panic msg (w.log (Call.GetChallenge id0) s)
      | Except.ok id =>
        match client.GetChallengeRequirements id s with
        | (Except.error err, s1) =>
          Run.ret
            (chall1, diag.Diagnostics.AddError diags "Client Error"
              ("Unable to read challenge " ++ strconv.Itoa id
                ++ " requirements, got error: " ++ err))
            ((w.log (Call.GetChallenge id0) s).log (Call.GetChallengeRequirements id) s1)
        | (Except.ok resReqs, s1) =>
          match decodeRequirements resReqs with
          | Except.error msg =>
            Run.panic msg
              ((w.log (Call.GetChallenge id0) s).log (Call.GetChallengeRequirements id) s1)
          | Except.ok reqs =>
            let chall2 : challengeResourceModel := { chall1 with Requirements := reqs }
            match client.GetChallengeTags id s1 with
            | (Except.error err, s2) =>
              Run.ret
                (chall2, diag.Diagnostics.AddError diags "Client Error"
                  ("Unable to read challenge " ++ strconv.Itoa id
                    ++ " tags, got error: " ++ err))
                (((w.log (Call.GetChallenge id0) s).log (Call.GetChallengeRequirements id) s1).log
                  (Call.GetChallengeTags id) s2)
            | (Except.ok resTags, s2) =>
              let chall3 : challengeResourceModel :=
                { chall2 with Tags := some (resTags.map (fun tag => types.StringValue tag.Value)) }
              match client.GetChallengeTopics id s2 with
              | (Except.error err, s3) =>
                Run.ret
                  (chall3, diag.Diagnostics.AddError diags "Client Error"
                    ("Unable to read challenge " ++ strconv.Itoa id
                      ++ " topics, got error: " ++ err))
                  ((((w.log (Call.GetChallenge id0) s).log
                    (Call.GetChallengeRequirements id) s1).log
                    (Call.GetChallengeTags id) s2).log (Call.GetChallengeTopics id) s3)
              | (Except.ok resTopics, s3) =>
                Run.ret
                  ({ chall3 with
                      Topics := some (resTopics.map (fun topic => types.StringValue topic.Value)) },
                    diags)
                  ((((w.log (Call.GetChallenge id0) s).log
                    (Call.GetChallengeRequirements id) s1).log
                    (Call.GetChallengeTags id) s2).log (Call.GetChallengeTopics id) s3)

namespace challengeResource

/-- Go `(*challengeResource).Read`. The call `data.Read(ctx, r.client, resp.Diagnostics)`
passes the slice `resp.Diagnostics` by value: what the callee appends is not seen in
`resp.Diagnostics`, which the following `HasError` inspects. -/
def Read {σ : Type} (client : api.Client σ) (req : resource.ReadRequest)
    (resp : resource.Response) (w : World σ) : Run σ resource.Response :=
  let diags0 := diag.Diagnostics.Append resp.Diagnostics req.State.diags
  if diag.Diagnostics.HasError diags0 then Run.ret { resp with Diagnostics := diags0 } w
  else
    match challengeResourceModel.Read req.State.data client diags0 w with
    | Run.panic msg w1 => Run.panic msg w1
    | Run.ret (data, _) w1 =>
      if diag.Diagnostics.HasError diags0 then Run.ret { resp with Diagnostics := diags0 } w1
      else Run.ret { Diagnostics := diags0, State := some data } w1

/-! ## Update -/

/-- The block "Configuration checks" of Update: the model and the diagnostics after it. -/
def Update.configurationChecks (data : challengeResourceModel) (diags : diag.Diagnostics) :
    challengeResourceModel × diag.Diagnostics :=
  if data.Type_.Equal (types.StringValue "dynamic") then
    let diags1 :=
      if data.Decay.IsNull then
        diag.Diagnostics.AddError diags "Configuration error"
          "decay must be set for dynamic challenges"
      else diags
    let diags2 :=
      if data.Minimum.IsNull then
        diag.Diagnostics.AddError diags1 "Configuration error"
          "minimum must be set for dynamic challenges"
      else diags1
    if data.Function.IsNull then ({ data with Function := FunctionLogarithmic }, diags2)
    else (data, diags2)
  else (data, diags)

/-- The parameters of the `PatchChallenge` call of Update. -/
def Update.params (data : challengeResourceModel) (reqs : Option api.Requirements) :
    api.PatchChallengeParams :=
  { Name := data.Name.ValueString
    Category := data.Category.ValueString
    Description := data.Description.ValueString
    ConnectionInfo := data.ConnectionInfo.ValueStringPointer
    MaxAttempts := utils.ToInt data.MaxAttempts
    Function := data.Function.ValueStringPointer
    Value := utils.ToInt data.Value
    Initial := utils.ToInt data.Value
    Decay := utils.ToInt data.Decay
    Minimum := utils.ToInt data.Minimum
    State := data.State.ValueString
    NextID := utils.ToInt data.Next
    Requirements := reqs }

/-- The part "Update its topics (drop them all, create new ones)" of Update and its end. -/
def Update.topics {σ : Type} (client : api.Client σ) (resp : resource.Response)
    (data : challengeResourceModel) (diags : diag.Diagnostics) (id : Int) (w : World σ) :
    Run σ resource.Response :=
  match client.GetChallengeTopics id w.remote with
  | (Except.error err, s) =>
    Run.ret
      { resp with Diagnostics := (diag.Diagnostics.AddError diags "Client Error"
          ("Unable to get all topics of challenge " ++ data.ID.ValueString
            ++ ", got error: " ++ err)) }
      (w.log (Call.GetChallengeTopics id) s)
  | (Except.ok challTopics, s) =>
    match deleteTopicsLoop client data.ID challTopics diags
        (w.log (Call.GetChallengeTopics id) s) with
    | Run.panic msg w1 => Run.panic msg w1
    | Run.ret (Loop.returned d) w1 => Run.ret { resp with Diagnostics := d } w1
    | Run.ret (Loop.finished _) w1 =>
      match postTopicsLoop client data.ID
          (fun err => "Unable to create topic of challenge " ++ data.ID.ValueString
            ++ ", got error: " ++ err)
          (sliceElems data.Topics) [] diags w1 with
      | Run.panic msg w2 => Run.panic msg w2
      | Run.ret (Loop.returned d) w2 => Run.ret { resp with Diagnostics := d } w2
      | Run.ret (Loop.finished topics) w2 =>
        let data1 : challengeResourceModel :=
          { data with Topics := keepNil data.Topics topics }
        if diag.Diagnostics.HasError diags then Run.ret { resp with Diagnostics := diags } w2
        else Run.ret { Diagnostics := diags, State := some data1 } w2

/-- The part "Update its tags (drop them all, create new ones)" of Update, followed by
the topics part. -/
def Update.tags {σ : Type} (client : api.Client σ) (resp : resource.Response)
    (data : challengeResourceModel) (diags : diag.Diagnostics) (w : World σ) :
    Run σ resource.Response :=
  match utils.Atoi data.ID.ValueString with
  | Except.error msg => Run.panic msg w
  | Except.ok id =>
    match client.GetChallengeTags id w.remote with
    | (Except.error err, s) =>
      Run.ret
        { resp with Diagnostics := (diag.Diagnostics.AddError diags "Client Error"
            ("Unable to get all tags of challenge " ++ data.ID.ValueString
              ++ ", got error: " ++ err)) }
        (w.log (Call.GetChallengeTags id) s)
    | (Except.ok challTags, s) =>
      match deleteTagsLoop client data.ID challTags diags
          (w.log (Call.GetChallengeTags id) s) with
      | Run.panic msg w1 => Run.panic msg w1
      | Run.ret (Loop.returned d) w1 => Run.ret { resp with Diagnostics := d } w1
      | Run.ret (Loop.finished _) w1 =>
        match postTagsLoop client data.ID
            (fun err => "Unable to create tag of challenge " ++ data.ID.ValueString
              ++ ", got error: " ++ err)
            (sliceElems data.Tags) [] diags w1 with
        | Run.panic msg w2 => Run.panic msg w2
        | Run.ret (Loop.returned d) w2 => Run.ret { resp with Diagnostics := d } w2
        | Run.ret (Loop.finished tags) w2 =>
          Update.topics client resp { data with Tags := keepNil data.Tags tags } diags id w2

/-- Go `(*challengeResource).Update`. The prior state is decoded and not used. -/
def Update {σ : Type} (client : api.Client σ) (req : resource.UpdateRequest)
    (resp : resource.Response) (w : World σ) : Run σ resource.Response :=
  let diags0 := diag.Diagnostics.Append resp.Diagnostics req.Plan.diags
  if diag.Diagnostics.HasError diags0 then Run.ret { resp with Diagnostics := diags0 } w
  else
    let data1 := (Update.configurationChecks req.Plan.data diags0).1
    let diags1 := (Update.configurationChecks req.Plan.data diags0).2
    if diag.Diagnostics.HasError diags1 then Run.ret { resp with Diagnostics := diags1 } w
    else
      match encodeRequirements data1.Requirements with
      | Except.error msg => Run.panic msg w
      | Except.ok reqs =>
        match utils.Atoi data1.ID.ValueString with
        | Except.error msg => Run.panic msg w
        | Except.ok id =>
          match client.PatchChallenge id (Update.params data1 reqs) w.remote with
          | (Except.error err, s) =>
            Run.ret
              { resp with Diagnostics := (diag.Diagnostics.AddError diags1 "Client Error"
                  ("Unable to update challenge, got error: " ++ err)) }
              (w.log (Call.PatchChallenge id (Update.params data1 reqs)) s)
          | (Except.ok _, s) =>
            Update.tags client resp data1 diags1
              (w.log (Call.PatchChallenge id (Update.params data1 reqs)) s)

end challengeResource

/-! ## Observing a run -/

/-- The world an operation leaves behind, whether it returned or panicked. -/
def Run.world {σ α : Type} : Run σ α → World σ
  | Run.ret _ w => w
  | Run.panic _ w => w

/-- The value an operation returned, `none` when it panicked. -/
def Run.result {σ α : Type} : Run σ α → Option α
  | Run.ret a _ => some a
  | Run.panic _ _ => none

/-! ## A reference remote

An in-memory model of the remote platform, used to run the operations on concrete
inputs. `fails` lists the calls the remote refuses, with the error it answers. -/

namespace remote

structure Record where
  ID : Int
  Challenge : Int
  Value : String
  deriving DecidableEq, Repr

structure Platform where
  challenges : List api.Challenge
  requirements : List (Int × api.Requirements)
  tags : List Record
  topics : List Record
  nextID : Int
  deriving DecidableEq, Repr

def empty : Platform :=
  { challenges := [], requirements := [], tags := [], topics := [], nextID := 1 }

def Record.toTag (r : Record) : api.Tag := { ID := r.ID, Value := r.Value }

def Record.toTopic (r : Record) : api.Topic := { ID := r.ID, Value := r.Value }

def created (id : Int) (p : api.PostChallengesParams) : api.Challenge :=
  { ID := id, Name := p.Name, Category := p.Category, Description := p.Description,
    ConnectionInfo := p.ConnectionInfo, MaxAttempts := p.MaxAttempts,
    Function := p.Function, Value := p.Value, Initial := p.Initial, Decay := p.Decay,
    Minimum := p.Minimum, State := p.State, Type_ := p.Type_, NextID := p.NextID }

def patched (c : api.Challenge) (p : api.PatchChallengeParams) : api.Challenge :=
  { c with
    Name := p.Name, Category := p.Category, Description := p.Description,
    ConnectionInfo := p.ConnectionInfo, MaxAttempts := p.MaxAttempts,
    Function := p.Function, Value := p.Value.getD c.Value, Initial := p.Initial,
    Decay := p.Decay, Minimum := p.Minimum, State := p.State, NextID := p.NextID }

def setRequirements (id : Int) (r : Option api.Requirements)
    (rs : List (Int × api.Requirements)) : List (Int × api.Requirements) :=
  match r with
  | none => rs.filter (fun e => decide (e.1 ≠ id))
  | some r => rs.filter (fun e => decide (e.1 ≠ id)) ++ [(id, r)]

/-- The client of the reference remote. -/
def client (fails : Call → Option String) : api.Client Platform where
  PostChallenges p s :=
    match fails (Call.PostChallenges p) with
    | some err => (Except.error err, s)
    | none =>
      (Except.ok (created s.nextID p),
        { s with
          challenges := s.challenges ++ [created s.nextID p]
          requirements := setRequirements s.nextID p.Requirements s.requirements
          nextID := s.nextID + 1 })
  GetChallenge id s :=
    match fails (Call.GetChallenge id) with
    | some err => (Except.error err, s)
    | none =>
      match s.challenges.find? (fun c => decide (c.ID = id)) with
      | none => (Except.error "not found", s)
      | some c => (Except.ok c, s)
  PatchChallenge id p s :=
    match fails (Call.PatchChallenge id p) with
    | some err => (Except.error err, s)
    | none =>
      match s.challenges.find? (fun c => decide (c.ID = id)) with
      | none => (Except.error "not found", s)
      | some c =>
        (Except.ok (patched c p),
          { s with
            challenges := s.challenges.map (fun x => if x.ID = id then patched c p else x)
            requirements := setRequirements id p.Requirements s.requirements })
  DeleteChallenge id s :=
    match fails (Call.DeleteChallenge id) with
    | some err => (some err, s)
    | none =>
      (none,
        { s with
          challenges := s.challenges.filter (fun c => decide (c.ID ≠ id))
          requirements := s.requirements.filter (fun e => decide (e.1 ≠ id))
          tags := s.tags.filter (fun r => decide (r.Challenge ≠ id))
          topics := s.topics.filter (fun r => decide (r.Challenge ≠ id)) })
  GetChallengeRequirements id s :=
    match fails (Call.GetChallengeRequirements id) with
    | some err => (Except.error err, s)
    | none => (Except.ok ((s.requirements.find? (fun e => decide (e.1 = id))).map Prod.snd), s)
  GetChallengeTags id s :=
    match fails (Call.GetChallengeTags id) with
    | some err => (Except.error err, s)
    | none =>
      (Except.ok ((s.tags.filter (fun r => decide (r.Challenge = id))).map Record.toTag), s)
  PostTags p s :=
    match fails (Call.PostTags p) with
    | some err => (Except.error err, s)
    | none =>
      (Except.ok { ID := s.nextID, Value := p.Value },
        { s with
          tags := s.tags ++ [{ ID := s.nextID, Challenge := p.Challenge, Value := p.Value }]
          nextID := s.nextID + 1 })
  DeleteTag id s :=
    match fails (Call.DeleteTag id) with
    | some err => (some err, s)
    | none => (none, { s with tags := s.tags.filter (fun r => decide (strconv.Itoa r.ID ≠ id)) })
  GetChallengeTopics id s :=
    match fails (Call.GetChallengeTopics id) with
    | some err => (Except.error err, s)
    | none =>
      (Except.ok ((s.topics.filter (fun r => decide (r.Challenge = id))).map Record.toTopic), s)
  PostTopics p s :=
    match fails (Call.PostTopics p) with
    | some err => (Except.error err, s)
    | none =>
      (Except.ok { ID := s.nextID, Value := p.Value },
        { s with
          topics := s.topics ++ [{ ID := s.nextID, Challenge := p.Challenge, Value := p.Value }]
          nextID := s.nextID + 1 })
  DeleteTopic args s :=
    match fails (Call.DeleteTopic args) with
    | some err => (some err, s)
    | none =>
      (none, { s with topics := s.topics.filter (fun r => decide (strconv.Itoa r.ID ≠ args.ID)) })

/-- A remote that refuses nothing. -/
def healthy : Call → Option String := fun _ => none

end remote

/-! ## Describing what the remote does along a sequence of calls -/

/-- The `PostTags` calls for the given tags of challenge `cid`, in order. -/
def tagCalls (cid : Int) (tags : List basetypes.StringValue) : List Call :=
  tags.map (fun tag => Call.PostTags { Challenge := cid, Value := tag.ValueString })

/-- The `PostTopics` calls for the given topics of challenge `cid`, in order. -/
def topicCalls (cid : Int) (topics : List basetypes.StringValue) : List Call :=
  topics.map (fun topic =>
    Call.PostTopics { Challenge := cid, Type_ := "challenge", Value := topic.ValueString })

/-- The `DeleteTag` calls for the given remote tags, in order. -/
def deleteTagCalls (listed : List api.Tag) : List Call :=
  listed.map (fun tag => Call.DeleteTag (strconv.Itoa tag.ID))

/-- The remote state reached when the given tags are created one after the other from
state `s` and every creation succeeds; `none` when one of them fails. -/
def tagsCreated {σ : Type} (client : api.Client σ) (cid : Int) :
    List basetypes.StringValue → σ → Option σ
  | [], s => some s
  | tag :: rest, s =>
    match client.PostTags { Challenge := cid, Value := tag.ValueString } s with
    | (Except.ok _, s1) => tagsCreated client cid rest s1
    | (Except.error _, _) => none

/-- The remote state reached when the given topics are created one after the other from
state `s` and every creation succeeds; `none` when one of them fails. -/
def topicsCreated {σ : Type} (client : api.Client σ) (cid : Int) :
    List basetypes.StringValue → σ → Option σ
  | [], s => some s
  | topic :: rest, s =>
    match client.PostTopics
        { Challenge := cid, Type_ := "challenge", Value := topic.ValueString } s with
    | (Except.ok _, s1) => topicsCreated client cid rest s1
    | (Except.error _, _) => none

/-- An operation succeeded: it returned and its response holds no error diagnostic. -/
def Run.succeeded {σ : Type} : Run σ resource.Response → Bool
  | Run.ret r _ => !diag.Diagnostics.HasError r.Diagnostics
  | Run.panic _ _ => false

/-- The remote behaves as a faithful tag store, `tags` reading the stored tag records off
the remote state: listing succeeds and returns the records of the challenge, deleting
succeeds and removes the records with that id, creating succeeds and adds one record
with the given challenge and value; listing and the calls that are not about tags leave
the stored tags as they are. -/
structure FaithfulTagStore {σ : Type} (client : api.Client σ)
    (tags : σ → List remote.Record) : Prop where
  list_result : ∀ id s, (client.GetChallengeTags id s).1
    = Except.ok (((tags s).filter (fun r => decide (r.Challenge = id))).map
        remote.Record.toTag)
  list_state : ∀ id s, tags (client.GetChallengeTags id s).2 = tags s
  delete_result : ∀ sid s, (client.DeleteTag sid s).1 = none
  delete_state : ∀ sid s, tags (client.DeleteTag sid s).2
    = (tags s).filter (fun r => decide (strconv.Itoa r.ID ≠ sid))
  create_result : ∀ p s, ∃ t, (client.PostTags p s).1 = Except.ok t
  create_state : ∀ p s, ∃ newID, tags (client.PostTags p s).2
    = tags s ++ [{ ID := newID, Challenge := p.Challenge, Value := p.Value }]
  patch_state : ∀ id p s, tags (client.PatchChallenge id p s).2 = tags s
  listTopics_state : ∀ id s, tags (client.GetChallengeTopics id s).2 = tags s
  deleteTopic_state : ∀ args s, tags (client.DeleteTopic args s).2 = tags s
  createTopic_state : ∀ p s, tags (client.PostTopics p s).2 = tags s

/-! ## Sample inputs -/

/-- The response as the framework hands it to an operation: nothing reported, nothing
written. -/
def emptyResponse : resource.Response := { Diagnostics := [], State := none }

/-- A remote that refuses exactly the call `c`. -/
def remote.refusing (c : Call) : Call → Option String :=
  fun x => if x = c then some "boom" else none

/-- A standard challenge as planned by a user: 500 points, no tags, no topics. -/
def sampleStandard : challengeResourceModel :=
  { ID := types.StringUnknown
    Name := types.StringValue "warmup"
    Category := types.StringValue "misc"
    Description := types.StringValue "a first challenge"
    ConnectionInfo := types.StringValue ""
    MaxAttempts := types.Int64Value 0
    Function := types.StringUnknown
    Value := types.Int64Value 500
    Decay := basetypes.Int64Value.unknown
    Minimum := basetypes.Int64Value.unknown
    State := types.StringValue "hidden"
    Type_ := types.StringValue "standard"
    Next := types.Int64Null
    Requirements := none
    Tags := some []
    Topics := some [] }

/-- A standard challenge for which the user nevertheless gave the dynamic-only fields. -/
def sampleStandardLinear : challengeResourceModel :=
  { sampleStandard with
    Function := FunctionLinear
    Decay := types.Int64Value 10
    Minimum := types.Int64Value 50 }

/-- A dynamic challenge as planned by a user: 500 points, decay 10, minimum 50, the
decay function left unset. -/
def sampleDynamic : challengeResourceModel :=
  { sampleStandard with
    Type_ := types.StringValue "dynamic"
    Decay := types.Int64Value 10
    Minimum := types.Int64Value 50 }

/-- A dynamic challenge whose decay the user left unset: the plan carries it as unknown. -/
def sampleDynamicNoDecay : challengeResourceModel :=
  { sampleDynamic with Decay := basetypes.Int64Value.unknown }

/-- A standard challenge planned with three tags and two topics. -/
def sampleTagged : challengeResourceModel :=
  { sampleStandard with
    Tags := some [types.StringValue "web", types.StringValue "pwn", types.StringValue "easy"]
    Topics := some [types.StringValue "crypto", types.StringValue "rsa"] }

/-- A standard challenge as stored in the Terraform state after its creation with id 1. -/
def sampleStored : challengeResourceModel :=
  { sampleStandard with
    ID := types.StringValue "1"
    Function := types.StringNull
    Decay := types.Int64Null
    Minimum := types.Int64Null }

/-- The target of an update of challenge 1: tags web and pwn. -/
def sampleTarget : challengeResourceModel :=
  { sampleStored with Tags := some [types.StringValue "web", types.StringValue "pwn"] }

/-- The remote challenge 1, renamed out of band, with one tag. -/
def sampleRemote : remote.Platform :=
  { challenges :=
      [{ ID := 1, Name := "renamed", Category := "misc", Description := "a first challenge",
         ConnectionInfo := some "", MaxAttempts := some 0, Function := none, Value := 500,
         Initial := none, Decay := none, Minimum := none, State := "hidden",
         Type_ := "standard", NextID := none }]
    requirements := []
    tags := [{ ID := 2, Challenge := 1, Value := "web" }]
    topics := []
    nextID := 3 }

/-- The challenge 1 with the stored tags web and easy, as created by the resource. -/
def sampleTaggedRemote : remote.Platform :=
  { sampleRemote with
    tags := [{ ID := 2, Challenge := 1, Value := "web" },
             { ID := 3, Challenge := 1, Value := "easy" }]
    nextID := 4 }

/-- The remote after a dynamic challenge created with 500 points has decayed to 321. -/
def sampleDecayedRemote : remote.Platform :=
  { challenges :=
      [{ ID := 1, Name := "warmup", Category := "misc", Description := "a first challenge",
         ConnectionInfo := some "", MaxAttempts := some 0, Function := some "logarithmic",
         Value := 321, Initial := some 500, Decay := some 10, Minimum := some 50,
         State := "hidden", Type_ := "dynamic", NextID := none }]
    requirements := []
    tags := []
    topics := []
    nextID := 2 }

/-- Requirements as a user plans them: anonymized, prerequisites 3 and 5. -/
def sampleRequirements : RequirementsSubresourceModel :=
  { Behavior := BehaviorAnonymized
    Prerequisites := some [types.StringValue "3", types.StringValue "5"] }

/-- A remote that refuses exactly the call `c`, answering the error `err`. -/
def remote.refusingWith (c : Call) (err : String) : Call → Option String :=
  fun x => if x = c then some err else none

/-! # Theorems -/

/-! ## Diagnostics and id conversion: lemmas -/

theorem diag.HasError_AddError (diags : diag.Diagnostics) (summary detail : String) :
    diag.Diagnostics.HasError (diag.Diagnostics.AddError diags summary detail) = true := by
  unfold diag.Diagnostics.AddError diag.Diagnostics.Append diag.Diagnostics.Append
  by_cases hmem : diag.NewErrorDiagnostic summary detail ∈ diags
  · rw [if_pos hmem]
    unfold diag.Diagnostics.HasError
    rw [List.any_eq_true]
    exact ⟨_, hmem, by simp [diag.NewErrorDiagnostic]⟩
  · rw [if_neg hmem]
    unfold diag.Diagnostics.HasError
    simp [diag.NewErrorDiagnostic]

/-- After `AddError` the diagnostics contain the added error. -/
theorem diag.mem_AddError (diags : diag.Diagnostics) (summary detail : String) :
    diag.NewErrorDiagnostic summary detail ∈ diag.Diagnostics.AddError diags summary detail := by
  unfold diag.Diagnostics.AddError diag.Diagnostics.Append diag.Diagnostics.Append
  by_cases hmem : diag.NewErrorDiagnostic summary detail ∈ diags
  · rw [if_pos hmem]
    exact hmem
  · rw [if_neg hmem]
    simp



namespace strconv

/-- The character of a digit is a digit and carries its value. -/
theorem digitChar_spec : ∀ d, d < 10 →
    isDigit (digitChar d) = true ∧ (digitChar d).toNat - 48 = d := by
  decide

/-- Reading a run of digits continues from the value read so far. -/
theorem digitsValue_append (a b : List Char) (s : Nat) :
    digitsValue (a ++ b) s = digitsValue b (digitsValue a s) := by
  induction a generalizing s with
  | nil => rfl
  | cons c a ih => simp [digitsValue, ih]

/-- With enough fuel `formatDigits` puts a non-empty run of digits of value `n` in front
of the accumulator. -/
theorem formatDigits_spec (fuel n : Nat) (h : n < 10 ^ (fuel + 1)) :
    ∃ ds : List Char, ds ≠ [] ∧ ds.all isDigit = true ∧ digitsValue ds 0 = n ∧
      ∀ acc, formatDigits (fuel + 1) n acc = ds ++ acc := by
  induction fuel generalizing n with
  | zero =>
    have h10 : n < 10 := by simpa using h
    refine ⟨[digitChar n], by simp, ?_, ?_, ?_⟩
    · simp [(digitChar_spec n h10).1]
    · simp [digitsValue, (digitChar_spec n h10).2]
    · intro acc
      simp [formatDigits, h10]
  | succ fuel ih =>
    by_cases h10 : n < 10
    · refine ⟨[digitChar n], by simp, ?_, ?_, ?_⟩
      · simp [(digitChar_spec n h10).1]
      · simp [digitsValue, (digitChar_spec n h10).2]
      · intro acc
        simp [formatDigits, h10]
    · have hdiv : n / 10 < 10 ^ (fuel + 1) := by
        rw [Nat.div_lt_iff_lt_mul (by norm_num)]
        calc n < 10 ^ (fuel + 1 + 1) := h
          _ = 10 ^ (fuel + 1) * 10 := by ring
      obtain ⟨ds, hne, hall, hval, hfmt⟩ := ih (n / 10) hdiv
      have hmod : n % 10 < 10 := Nat.mod_lt _ (by norm_num)
      refine ⟨ds ++ [digitChar (n % 10)], by simp, ?_, ?_, ?_⟩
      · simp [hall, (digitChar_spec _ hmod).1]
      · rw [digitsValue_append, hval]
        simp only [digitsValue, (digitChar_spec _ hmod).2]
        omega
      · intro acc
        rw [formatDigits, if_neg h10, hfmt]
        simp

/-- The digits `Itoa` writes for a natural number parse back to it. -/
theorem parseUnsigned_formatDigits (n : Nat) :
    ∃ c cs, formatDigits (n + 1) n [] = c :: cs ∧ isDigit c = true ∧
      parseUnsigned (c :: cs) = some n := by
  have hlt : n < 10 ^ (n + 1) :=
    lt_trans (Nat.lt_pow_self (by norm_num) n) (Nat.pow_lt_pow_right (by norm_num) (by omega))
  obtain ⟨ds, hne, hall, hval, hfmt⟩ := formatDigits_spec n n hlt
  have h0 := hfmt []
  rw [List.append_nil] at h0
  cases ds with
  | nil => exact absurd rfl hne
  | cons c cs =>
    refine ⟨c, cs, h0, ?_, ?_⟩
    · simp at hall
      exact hall.1
    · simp [parseUnsigned, hall, hval]

/-- A digit is not a sign. -/
theorem isDigit_ne_sign (c : Char) (h : isDigit c = true) : c ≠ '-' ∧ c ≠ '+' := by
  constructor <;> (rintro rfl; revert h; decide)

/-- Go `strconv.Atoi` reads back what `strconv.Itoa` wrote, for a Go `int`. -/
theorem Atoi_of_Itoa (i : Int) (hlo : minInt ≤ i) (hhi : i ≤ maxInt) :
    Atoi (Itoa i) = (i, none) := by
  cases i with
  | ofNat n =>
    obtain ⟨c, cs, hfmt, hc, hparse⟩ := parseUnsigned_formatDigits n
    have hs := isDigit_ne_sign c hc
    have hn : (n : Int) ≤ maxInt := hhi
    unfold Itoa Atoi
    simp only [hfmt]
    split
    · rename_i heq
      simp at heq
      exact absurd heq.1 hs.1
    · rename_i heq
      simp at heq
      exact absurd heq.1 hs.2
    · simp [hparse, hn]
  | negSucc n =>
    obtain ⟨c, cs, hfmt, hc, hparse⟩ := parseUnsigned_formatDigits (n + 1)
    have hn : ((n + 1 : Nat) : Int) ≤ 9223372036854775808 := by
      have : minInt ≤ Int.negSucc n := hlo
      rw [Int.negSucc_eq] at this
      unfold minInt at this
      push_cast
      omega
    unfold Itoa Atoi
    simp only [hfmt, hparse]
    simp only [hn, if_true]
    rfl

end strconv

/-- The id conversion of `utils` reads back what `strconv.Itoa` wrote, for a Go `int`. -/
theorem utils.Atoi_Itoa (i : Int) (hlo : strconv.minInt ≤ i) (hhi : i ≤ strconv.maxInt) :
    utils.Atoi (strconv.Itoa i) = Except.ok i := by
  unfold utils.Atoi
  rw [strconv.Atoi_of_Itoa i hlo hhi]

/-! ## The creation loops: lemmas -/

theorem postTagsLoop_finished {σ : Type} (client : api.Client σ) (ID : basetypes.StringValue)
    (detail : String → String) (cid : Int) (hid : utils.Atoi ID.ValueString = Except.ok cid)
    (tags : List basetypes.StringValue) :
    ∀ (acc : List basetypes.StringValue) (diags : diag.Diagnostics) (w : World σ) (s1 : σ),
      tagsCreated client cid tags w.remote = some s1 →
      postTagsLoop client ID detail tags acc diags w
        = Run.ret (Loop.finished (acc ++ tags))
            { remote := s1, calls := w.calls ++ tagCalls cid tags } := by
  induction tags with
  | nil =>
    intro acc diags w s1 h
    simp only [tagsCreated, Option.some.injEq] at h
    subst h
    simp [postTagsLoop, tagCalls]
  | cons tag rest ih =>
    intro acc diags w s1 h
    unfold postTagsLoop
    simp only [hid]
    unfold tagsCreated at h
    rcases hp : client.PostTags { Challenge := cid, Value := tag.ValueString } w.remote
      with ⟨r, s2⟩
    rw [hp] at h
    cases r with
    | error err => simp at h
    | ok t =>
      simp only at h ⊢
      rw [ih (acc ++ [tag]) diags _ s1 h]
      simp [World.log, tagCalls]

/-- The tag creation loop when the creations of `pre` succeed and the next one fails: it
returns with a "Client Error", having issued the calls for `pre` and the failing tag. -/
theorem postTagsLoop_returned {σ : Type} (client : api.Client σ) (ID : basetypes.StringValue)
    (detail : String → String) (cid : Int) (hid : utils.Atoi ID.ValueString = Except.ok cid)
    (pre : List basetypes.StringValue) (tag : basetypes.StringValue)
    (post : List basetypes.StringValue) (err : String) (s2 : σ) :
    ∀ (acc : List basetypes.StringValue) (diags : diag.Diagnostics) (w : World σ) (s1 : σ),
      tagsCreated client cid pre w.remote = some s1 →
      client.PostTags { Challenge := cid, Value := tag.ValueString } s1
        = (Except.error err, s2) →
      postTagsLoop client ID detail (pre ++ tag :: post) acc diags w
        = Run.ret (Loop.returned (diag.Diagnostics.AddError diags "Client Error" (detail err)))
            { remote := s2, calls := w.calls ++ tagCalls cid (pre ++ [tag]) } := by
  induction pre with
  | nil =>
    intro acc diags w s1 h hf
    simp only [tagsCreated, Option.some.injEq] at h
    subst h
    simp [postTagsLoop, hid, hf, World.log, tagCalls]
  | cons t rest ih =>
    intro acc diags w s1 h hf
    rw [List.cons_append]
    unfold postTagsLoop
    simp only [hid]
    unfold tagsCreated at h
    rcases hp : client.PostTags { Challenge := cid, Value := t.ValueString } w.remote
      with ⟨r, s3⟩
    rw [hp] at h
    cases r with
    | error e => simp at h
    | ok x =>
      simp only at h ⊢
      rw [ih (acc ++ [t]) diags _ s1 h hf]
      simp [World.log, tagCalls]

/-- The topic creation loop when every creation succeeds. -/
theorem postTopicsLoop_finished {σ : Type} (client : api.Client σ)
    (ID : basetypes.StringValue) (detail : String → String) (cid : Int)
    (hid : utils.Atoi ID.ValueString = Except.ok cid) (topics : List basetypes.StringValue) :
    ∀ (acc : List basetypes.StringValue) (diags : diag.Diagnostics) (w : World σ) (s1 : σ),
      topicsCreated client cid topics w.remote = some s1 →
      postTopicsLoop client ID detail topics acc diags w
        = Run.ret (Loop.finished (acc ++ topics))
            { remote := s1, calls := w.calls ++ topicCalls cid topics } := by
  induction topics with
  | nil =>
    intro acc diags w s1 h
    simp only [topicsCreated, Option.some.injEq] at h
    subst h
    simp [postTopicsLoop, topicCalls]
  | cons topic rest ih =>
    intro acc diags w s1 h
    unfold postTopicsLoop
    simp only [hid]
    unfold topicsCreated at h
    rcases hp : client.PostTopics
        { Challenge := cid, Type_ := "challenge", Value := topic.ValueString } w.remote
      with ⟨r, s2⟩
    rw [hp] at h
    cases r with
    | error err => simp at h
    | ok t =>
      simp only at h ⊢
      rw [ih (acc ++ [topic]) diags _ s1 h]
      simp [World.log, topicCalls]

/-- The topic creation loop when the creations of `pre` succeed and the next one fails. -/
theorem postTopicsLoop_returned {σ : Type} (client : api.Client σ)
    (ID : basetypes.StringValue) (detail : String → String) (cid : Int)
    (hid : utils.Atoi ID.ValueString = Except.ok cid)
    (pre : List basetypes.StringValue) (topic : basetypes.StringValue)
    (post : List basetypes.StringValue) (err : String) (s2 : σ) :
    ∀ (acc : List basetypes.StringValue) (diags : diag.Diagnostics) (w : World σ) (s1 : σ),
      topicsCreated client cid pre w.remote = some s1 →
      client.PostTopics { Challenge := cid, Type_ := "challenge", Value := topic.ValueString } s1
        = (Except.error err, s2) →
      postTopicsLoop client ID detail (pre ++ topic :: post) acc diags w
        = Run.ret (Loop.returned (diag.Diagnostics.AddError diags "Client Error" (detail err)))
            { remote := s2, calls := w.calls ++ topicCalls cid (pre ++ [topic]) } := by
  induction pre with
  | nil =>
    intro acc diags w s1 h hf
    simp only [topicsCreated, Option.some.injEq] at h
    subst h
    simp [postTopicsLoop, hid, hf, World.log, topicCalls]
  | cons t rest ih =>
    intro acc diags w s1 h hf
    rw [List.cons_append]
    unfold postTopicsLoop
    simp only [hid]
    unfold topicsCreated at h
    rcases hp : client.PostTopics
        { Challenge := cid, Type_ := "challenge", Value := t.ValueString } w.remote
      with ⟨r, s3⟩
    rw [hp] at h
    cases r with
    | error e => simp at h
    | ok x =>
      simp only at h ⊢
      rw [ih (acc ++ [t]) diags _ s1 h hf]
      simp [World.log, topicCalls]

/-! ## Anonymization mapping: theorems -/

/-- C1: for each behavior `b` among hidden and anonymized, `GetAnon` returns a flag (the
nil flag for hidden, a flag holding true for anonymized) and `FromAnon` decodes that flag
back to `b`. -/
theorem FromAnon_GetAnon (b : basetypes.StringValue)
    (h : b = BehaviorHidden ∨ b = BehaviorAnonymized) :
    GetAnon BehaviorHidden = Except.ok none ∧
    GetAnon BehaviorAnonymized = Except.ok (some true) ∧
    ∃ flag, GetAnon b = Except.ok flag ∧ FromAnon flag = Except.ok b := by
  refine ⟨by decide, by decide, ?_⟩
  rcases h with h | h
  · subst h
    exact ⟨none, by decide, by decide⟩
  · subst h
    exact ⟨some true, by decide, by decide⟩

/-- Witness of C1: the behavior anonymized. -/
theorem FromAnon_GetAnon_witness :
    (BehaviorAnonymized = BehaviorHidden ∨ BehaviorAnonymized = BehaviorAnonymized) ∧
    ∃ flag, GetAnon BehaviorAnonymized = Except.ok flag ∧
      FromAnon flag = Except.ok BehaviorAnonymized :=
  ⟨Or.inr rfl, (FromAnon_GetAnon BehaviorAnonymized (Or.inr rfl)).2.2⟩

/-- C2: `FromAnon` on a present flag holding false is the panic and returns no behavior
at all; it returns hidden exactly for the nil flag and anonymized exactly for true. -/
theorem FromAnon_false_panics :
    FromAnon (some false) = Except.error "invalid anonymization value, got boolean false" ∧
    (∀ v, FromAnon (some false) ≠ Except.ok v) ∧
    (∀ b, FromAnon b = Except.ok BehaviorHidden ↔ b = none) ∧
    (∀ b, FromAnon b = Except.ok BehaviorAnonymized ↔ b = some true) := by
  refine ⟨rfl, ?_, ?_, ?_⟩
  · intro v h
    simp [FromAnon] at h
  · intro b
    rcases b with _ | _ | _ <;> simp [FromAnon, BehaviorHidden, BehaviorAnonymized, types.StringValue]
  · intro b
    rcases b with _ | _ | _ <;> simp [FromAnon, BehaviorHidden, BehaviorAnonymized, types.StringValue]

/-! ## Read: theorems -/

/-- C3: evaluation of Read where a fetch fails. With the entity fetch refused, Read
returns without any diagnostic and writes the model to the state; with the tags fetch
refused, Read returns without any diagnostic and writes the partly decoded model (name
from the remote, tags not refreshed) to the state. The "Client Error" exists only in the
slice of the callee, `challengeResourceModel.Read`. -/
theorem Read_failed_fetch_writes_state :
    (challengeResource.Read (remote.client (remote.refusing (Call.GetChallenge 1)))
        { State := { diags := [], data := sampleStored } } emptyResponse
        { remote := sampleRemote, calls := [] }).result
      = some { Diagnostics := [], State := some sampleStored } ∧
    (challengeResource.Read (remote.client (remote.refusing (Call.GetChallengeTags 1)))
        { State := { diags := [], data := sampleStored } } emptyResponse
        { remote := sampleRemote, calls := [] }).result
      = some { Diagnostics := [],
               State := some { sampleStored with
                 Name := types.StringValue "renamed", Tags := some [] } } ∧
    (challengeResourceModel.Read sampleStored
        (remote.client (remote.refusing (Call.GetChallenge 1))) []
        { remote := sampleRemote, calls := [] }).result
      = some (sampleStored,
          [diag.NewErrorDiagnostic "Client Error"
            "Unable to read challenge 1, got error: boom"]) := by
  refine ⟨rfl, rfl, rfl⟩

/-- Decoding the scalar fields leaves the id as it is. -/
theorem challengeResourceModel.decodeScalars_ID (chall : challengeResourceModel)
    (res : api.Challenge) : (chall.decodeScalars res).ID = chall.ID := by
  unfold challengeResourceModel.decodeScalars
  split
  · rfl
  · split <;> rfl

/-- C8: when the four fetches of a read succeed (and the requirements decode), Read
returns a model whose type is the type read from the remote and whose value, whatever the
model held before, is the remote's direct value field for type "standard" and the remote's
initial-value field for type "dynamic". -/
theorem Read_value_selection {σ : Type} (chall : challengeResourceModel)
    (client : api.Client σ) (diags : diag.Diagnostics) (w : World σ) (id : Int)
    (res : api.Challenge) (resReqs : Option api.Requirements)
    (reqs : Option RequirementsSubresourceModel) (resTags : List api.Tag)
    (resTopics : List api.Topic) (s1 s2 s3 s4 : σ)
    (hid : utils.Atoi chall.ID.ValueString = Except.ok id)
    (h1 : client.GetChallenge id w.remote = (Except.ok res, s1))
    (h2 : client.GetChallengeRequirements id s1 = (Except.ok resReqs, s2))
    (hr : decodeRequirements resReqs = Except.ok reqs)
    (h3 : client.GetChallengeTags id s2 = (Except.ok resTags, s3))
    (h4 : client.GetChallengeTopics id s3 = (Except.ok resTopics, s4)) :
    ∃ out, (challengeResourceModel.Read chall client diags w).result = some (out, diags) ∧
      out.Type_ = types.StringValue res.Type_ ∧
      (res.Type_ = "standard" → out.Value = types.Int64Value res.Value) ∧
      (res.Type_ = "dynamic" →
        out.Value = utils.ToTFInt64 res.Initial ∧
        ∀ v, res.Initial = some v → out.Value = types.Int64Value v) := by
  unfold challengeResourceModel.Read
  simp only [hid, h1, challengeResourceModel.decodeScalars_ID, h2, hr, h3, h4]
  refine ⟨_, rfl, ?_, ?_, ?_⟩
  · show (chall.decodeScalars res).Type_ = types.StringValue res.Type_
    unfold challengeResourceModel.decodeScalars
    split
    · rfl
    · split <;> rfl
  · intro hstd
    show (chall.decodeScalars res).Value = types.Int64Value res.Value
    unfold challengeResourceModel.decodeScalars
    rw [if_pos hstd]
  · intro hdyn
    have hns : ¬ res.Type_ = "standard" := by
      rw [hdyn]; decide
    have hv : (chall.decodeScalars res).Value = utils.ToTFInt64 res.Initial := by
      unfold challengeResourceModel.decodeScalars
      rw [if_neg hns, if_pos hdyn]
    refine ⟨hv, ?_⟩
    intro v hinit
    show (chall.decodeScalars res).Value = types.Int64Value v
    rw [hv, hinit]
    rfl

/-- Witness of C8: a dynamic challenge created with 500 points whose current value has
decayed to 321 is read back with value 500. -/
theorem Read_value_selection_witness :
    ∃ out, (challengeResourceModel.Read sampleStored (remote.client remote.healthy) []
        { remote := sampleDecayedRemote, calls := [] }).result = some (out, []) ∧
      out.Type_ = types.StringValue "dynamic" ∧ out.Value = types.Int64Value 500 := by
  obtain ⟨out, hres, htype, _, hdyn⟩ :=
    Read_value_selection sampleStored (remote.client remote.healthy) []
      { remote := sampleDecayedRemote, calls := [] } 1 _ _ _ _ _ _ _ _ _ rfl rfl rfl rfl rfl rfl
  exact ⟨out, hres, htype, (hdyn rfl).2 500 rfl⟩

/-! ## Field policy: theorems -/

/-- C4: evaluation of Create on a dynamic challenge whose decay is unknown (unset), on a
remote that refuses nothing: no diagnostic is reported, the challenge creation call is
issued and a model is written to the state; the function, unknown as well, is defaulted
by the same block. -/
theorem Create_dynamic_unknown_decay_goes_remote :
    sampleDynamicNoDecay.Type_ = types.StringValue "dynamic" ∧
    sampleDynamicNoDecay.Decay.IsUnknown = true ∧
    (challengeResource.Create.configurationChecks sampleDynamicNoDecay []).2 = [] ∧
    (challengeResource.Create.configurationChecks sampleDynamicNoDecay []).1.Function
      = FunctionLogarithmic ∧
    (∃ p, (challengeResource.Create (remote.client remote.healthy)
        { Plan := { diags := [], data := sampleDynamicNoDecay } } emptyResponse
        { remote := remote.empty, calls := [] }).world.calls = [Call.PostChallenges p]) ∧
    ((challengeResource.Create (remote.client remote.healthy)
        { Plan := { diags := [], data := sampleDynamicNoDecay } } emptyResponse
        { remote := remote.empty, calls := [] }).result.map
          (fun r => (r.Diagnostics, r.State.isSome))) = some ([], true) := by
  refine ⟨rfl, rfl, rfl, rfl, ⟨_, rfl⟩, rfl⟩

/-- C5, as stated, fails: a standard challenge given with function linear, decay 10 and
minimum 50 keeps all three through the policy step of Create, and the create request
carries the function. -/
theorem Create_standard_keeps_known_function :
    sampleStandardLinear.Type_ = types.StringValue "standard" ∧
    (challengeResource.Create.configurationChecks sampleStandardLinear []).1.Function
      = FunctionLinear ∧
    (challengeResource.Create.configurationChecks sampleStandardLinear []).1.Decay
      = types.Int64Value 10 ∧
    (challengeResource.Create.configurationChecks sampleStandardLinear []).1.Minimum
      = types.Int64Value 50 ∧
    (challengeResource.Create.params
      (challengeResource.Create.configurationChecks sampleStandardLinear []).1 none).Function
      = some "linear" := by
  refine ⟨rfl, rfl, rfl, rfl, rfl⟩

/-- The policy step of Create on a challenge that is not dynamic. -/
theorem Create.configurationChecks_not_dynamic (data : challengeResourceModel)
    (diags : diag.Diagnostics)
    (hne : data.Type_.Equal (types.StringValue "dynamic") = false) :
    challengeResource.Create.configurationChecks data diags
      = (match data.Function with
          | basetypes.StringValue.known _ => data
          | _ => { data with Function := types.StringNull }, diags) := by
  unfold challengeResource.Create.configurationChecks
  rw [if_neg (by simp [hne])]
  cases hF : data.Function <;>
    simp [basetypes.StringValue.IsNull, basetypes.StringValue.IsUnknown]

/-- C7: evaluation of the two configuration-check steps on the same models with an
unknown function. For the dynamic one Create defaults the function to logarithmic and
Update leaves it unknown; for the standard one Create sets it to null and Update leaves
it unknown. The diagnostics agree. -/
theorem Update_checks_differ_on_unknown_function :
    sampleDynamic.Function = types.StringUnknown ∧
    (challengeResource.Create.configurationChecks sampleDynamic []).1.Function
      = FunctionLogarithmic ∧
    (challengeResource.Update.configurationChecks sampleDynamic []).1.Function
      = types.StringUnknown ∧
    sampleStandard.Function = types.StringUnknown ∧
    (challengeResource.Create.configurationChecks sampleStandard []).1.Function
      = types.StringNull ∧
    (challengeResource.Update.configurationChecks sampleStandard []).1.Function
      = types.StringUnknown ∧
    (challengeResource.Create.configurationChecks sampleDynamic []).2
      = (challengeResource.Update.configurationChecks sampleDynamic []).2 := by
  refine ⟨rfl, rfl, rfl, rfl, rfl, rfl, rfl⟩

/-! ## Create: theorems -/

/-- The policy step of Create changes no field but the function. -/
theorem Create.configurationChecks_fields (data : challengeResourceModel)
    (diags : diag.Diagnostics) :
    (challengeResource.Create.configurationChecks data diags).1
      = { data with
          Function := (challengeResource.Create.configurationChecks data diags).1.Function } := by
  unfold challengeResource.Create.configurationChecks
  by_cases h1 : data.Type_.Equal (types.StringValue "dynamic") = true <;>
    by_cases h2 : (data.Function.IsNull || data.Function.IsUnknown) = true <;>
    simp only [h1, h2, if_true, if_false, Bool.false_eq_true]

/-- The policy step of Create leaves the tags as they are. -/
theorem Create.configurationChecks_Tags (data : challengeResourceModel)
    (diags : diag.Diagnostics) :
    (challengeResource.Create.configurationChecks data diags).1.Tags = data.Tags := by
  rw [Create.configurationChecks_fields]

/-- The policy step of Create leaves the topics as they are. -/
theorem Create.configurationChecks_Topics (data : challengeResourceModel)
    (diags : diag.Diagnostics) :
    (challengeResource.Create.configurationChecks data diags).1.Topics = data.Topics := by
  rw [Create.configurationChecks_fields]

/-- The policy step of Create leaves the requirements as they are. -/
theorem Create.configurationChecks_Requirements (data : challengeResourceModel)
    (diags : diag.Diagnostics) :
    (challengeResource.Create.configurationChecks data diags).1.Requirements
      = data.Requirements := by
  rw [Create.configurationChecks_fields]

/-- C10: in Create, once the challenge is created (its id within the range of a Go int),
when the creations of the tags `pre` succeed and the creation of the next tag fails, Create
returns with a "Client Error" added and the state not written, and the calls it issued are
the challenge creation followed by the tag creations of `pre` and of the failing tag, in
input order: no topic creation, no deletion. Likewise, when every tag creation succeeds,
the creations of the topics `pre` succeed and the creation of the next topic fails, the
calls are the challenge creation, every tag creation, and the topic creations of `pre` and
of the failing topic. -/
theorem Create_sub_create_failure_stops {σ : Type} (client : api.Client σ)
    (req : resource.CreateRequest) (resp : resource.Response) (w : World σ)
    (reqs : Option api.Requirements) (res : api.Challenge) (s : σ)
    (hdec : diag.Diagnostics.HasError
      (diag.Diagnostics.Append resp.Diagnostics req.Plan.diags) = false)
    (hcfg : diag.Diagnostics.HasError
      (challengeResource.Create.configurationChecks req.Plan.data
        (diag.Diagnostics.Append resp.Diagnostics req.Plan.diags)).2 = false)
    (hreq : encodeRequirements req.Plan.data.Requirements = Except.ok reqs)
    (hpost : client.PostChallenges
      (challengeResource.Create.params
        (challengeResource.Create.configurationChecks req.Plan.data
          (diag.Diagnostics.Append resp.Diagnostics req.Plan.diags)).1 reqs) w.remote
      = (Except.ok res, s))
    (hlo : strconv.minInt ≤ res.ID) (hhi : res.ID ≤ strconv.maxInt) :
    (∀ pre tag post err s1 s2,
      sliceElems req.Plan.data.Tags = pre ++ tag :: post →
      tagsCreated client res.ID pre s = some s1 →
      client.PostTags { Challenge := res.ID, Value := tag.ValueString } s1
        = (Except.error err, s2) →
      challengeResource.Create client req resp w
        = Run.ret
            { Diagnostics := diag.Diagnostics.AddError
                (challengeResource.Create.configurationChecks req.Plan.data
                  (diag.Diagnostics.Append resp.Diagnostics req.Plan.diags)).2
                "Client Error" ("Unable to create tags, got error: " ++ err),
              State := resp.State }
            { remote := s2,
              calls := w.calls ++
                Call.PostChallenges
                  (challengeResource.Create.params
                    (challengeResource.Create.configurationChecks req.Plan.data
                      (diag.Diagnostics.Append resp.Diagnostics req.Plan.diags)).1 reqs)
                :: tagCalls res.ID (pre ++ [tag]) }) ∧
    (∀ pre topic post err s1 s2 s3,
      tagsCreated client res.ID (sliceElems req.Plan.data.Tags) s = some s1 →
      sliceElems req.Plan.data.Topics = pre ++ topic :: post →
      topicsCreated client res.ID pre s1 = some s2 →
      client.PostTopics
          { Challenge := res.ID, Type_ := "challenge", Value := topic.ValueString } s2
        = (Except.error err, s3) →
      challengeResource.Create client req resp w
        = Run.ret
            { Diagnostics := diag.Diagnostics.AddError
                (challengeResource.Create.configurationChecks req.Plan.data
                  (diag.Diagnostics.Append resp.Diagnostics req.Plan.diags)).2
                "Client Error" ("Unable to create topic, got error: " ++ err),
              State := resp.State }
            { remote := s3,
              calls := w.calls ++
                Call.PostChallenges
                  (challengeResource.Create.params
                    (challengeResource.Create.configurationChecks req.Plan.data
                      (diag.Diagnostics.Append resp.Diagnostics req.Plan.diags)).1 reqs)
                :: (tagCalls res.ID (sliceElems req.Plan.data.Tags)
                    ++ topicCalls res.ID (pre ++ [topic])) }) := by
  have hid : utils.Atoi (types.StringValue (strconv.Itoa res.ID)).ValueString
      = Except.ok res.ID := utils.Atoi_Itoa res.ID hlo hhi
  constructor
  · intro pre tag post err s1 s2 htags hpre hfail
    unfold challengeResource.Create
    simp only [hdec, hcfg, Bool.false_eq_true, if_false, Create.configurationChecks_Tags,
      Create.configurationChecks_Requirements, hreq, hpost, htags]
    rw [postTagsLoop_returned client _ _ res.ID hid pre tag post err s2 [] _ _ s1 hpre hfail]
    simp [World.log]
  · intro pre topic post err s1 s2 s3 htags htopics hpre hfail
    unfold challengeResource.Create
    simp only [hdec, hcfg, Bool.false_eq_true, if_false, Create.configurationChecks_Tags,
      Create.configurationChecks_Topics, Create.configurationChecks_Requirements, hreq, hpost,
      htopics]
    rw [postTagsLoop_finished client _ _ res.ID hid _ [] _ _ s1 htags]
    simp only
    rw [postTopicsLoop_returned client _ _ res.ID hid pre topic post err s3 [] _ _ s2 hpre
      hfail]
    simp [World.log]

/-- Witness of C10: three tags planned, the remote refuses the second one; and two topics
planned, the remote refuses the first one. -/
theorem Create_sub_create_failure_stops_witness :
    ((challengeResource.Create
        (remote.client (remote.refusing (Call.PostTags { Challenge := 1, Value := "pwn" })))
        { Plan := { diags := [], data := sampleTagged } } emptyResponse
        { remote := remote.empty, calls := [] }).world.calls
      = [Call.PostChallenges
          (challengeResource.Create.params
            (challengeResource.Create.configurationChecks sampleTagged []).1 none),
         Call.PostTags { Challenge := 1, Value := "web" },
         Call.PostTags { Challenge := 1, Value := "pwn" }]) ∧
    ((challengeResource.Create
        (remote.client (remote.refusing (Call.PostTags { Challenge := 1, Value := "pwn" })))
        { Plan := { diags := [], data := sampleTagged } } emptyResponse
        { remote := remote.empty, calls := [] }).result
      = some { Diagnostics := [diag.NewErrorDiagnostic "Client Error"
                  "Unable to create tags, got error: boom"],
               State := none }) ∧
    ((challengeResource.Create
        (remote.client (remote.refusing
          (Call.PostTopics { Challenge := 1, Type_ := "challenge", Value := "crypto" })))
        { Plan := { diags := [], data := sampleTagged } } emptyResponse
        { remote := remote.empty, calls := [] }).world.calls
      = [Call.PostChallenges
          (challengeResource.Create.params
            (challengeResource.Create.configurationChecks sampleTagged []).1 none),
         Call.PostTags { Challenge := 1, Value := "web" },
         Call.PostTags { Challenge := 1, Value := "pwn" },
         Call.PostTags { Challenge := 1, Value := "easy" },
         Call.PostTopics { Challenge := 1, Type_ := "challenge", Value := "crypto" }]) ∧
    ((challengeResource.Create
        (remote.client (remote.refusing
          (Call.PostTopics { Challenge := 1, Type_ := "challenge", Value := "crypto" })))
        { Plan := { diags := [], data := sampleTagged } } emptyResponse
        { remote := remote.empty, calls := [] }).result
      = some { Diagnostics := [diag.NewErrorDiagnostic "Client Error"
                  "Unable to create topic, got error: boom"],
               State := none }) := by
  have h := (Create_sub_create_failure_stops
      (remote.client (remote.refusing (Call.PostTags { Challenge := 1, Value := "pwn" })))
      { Plan := { diags := [], data := sampleTagged } } emptyResponse
      { remote := remote.empty, calls := [] } none _ _ rfl rfl rfl rfl
      (by decide) (by decide)).1
      [types.StringValue "web"] (types.StringValue "pwn") [types.StringValue "easy"] "boom"
      _ _ rfl rfl rfl
  have h2 := (Create_sub_create_failure_stops
      (remote.client (remote.refusing
        (Call.PostTopics { Challenge := 1, Type_ := "challenge", Value := "crypto" })))
      { Plan := { diags := [], data := sampleTagged } } emptyResponse
      { remote := remote.empty, calls := [] } none _ _ rfl rfl rfl rfl
      (by decide) (by decide)).2
      [] (types.StringValue "crypto") [types.StringValue "rsa"] "boom"
      _ _ _ rfl rfl rfl rfl
  rw [h, h2]
  exact ⟨rfl, rfl, rfl, rfl⟩

/-- The tag creation loop only adds calls to the log. -/
theorem postTagsLoop_calls_prefix {σ : Type} (client : api.Client σ)
    (ID : basetypes.StringValue) (detail : String → String)
    (tags : List basetypes.StringValue) :
    ∀ (acc : List basetypes.StringValue) (diags : diag.Diagnostics) (w : World σ),
      ∃ rest, (postTagsLoop client ID detail tags acc diags w).world.calls = w.calls ++ rest := by
  induction tags with
  | nil =>
    intro acc diags w
    exact ⟨[], by simp [postTagsLoop, Run.world]⟩
  | cons tag tl ih =>
    intro acc diags w
    unfold postTagsLoop
    cases hid : utils.Atoi ID.ValueString with
    | error msg => exact ⟨[], by simp [Run.world]⟩
    | ok cid =>
      rcases hp : client.PostTags { Challenge := cid, Value := tag.ValueString } w.remote
        with ⟨r, s⟩
      cases r with
      | error err =>
        refine ⟨[Call.PostTags { Challenge := cid, Value := tag.ValueString }], ?_⟩
        simp only [hp, Run.world, World.log]
      | ok t =>
        obtain ⟨rest, hrest⟩ := ih (acc ++ [tag]) diags
          (w.log (Call.PostTags { Challenge := cid, Value := tag.ValueString }) s)
        refine ⟨Call.PostTags { Challenge := cid, Value := tag.ValueString } :: rest, ?_⟩
        simp only [hp]
        rw [hrest]
        simp [World.log]

/-- The topic creation loop only adds calls to the log. -/
theorem postTopicsLoop_calls_prefix {σ : Type} (client : api.Client σ)
    (ID : basetypes.StringValue) (detail : String → String)
    (topics : List basetypes.StringValue) :
    ∀ (acc : List basetypes.StringValue) (diags : diag.Diagnostics) (w : World σ),
      ∃ rest,
        (postTopicsLoop client ID detail topics acc diags w).world.calls = w.calls ++ rest := by
  induction topics with
  | nil =>
    intro acc diags w
    exact ⟨[], by simp [postTopicsLoop, Run.world]⟩
  | cons topic tl ih =>
    intro acc diags w
    unfold postTopicsLoop
    cases hid : utils.Atoi ID.ValueString with
    | error msg => exact ⟨[], by simp [Run.world]⟩
    | ok cid =>
      rcases hp : client.PostTopics
          { Challenge := cid, Type_ := "challenge", Value := topic.ValueString } w.remote
        with ⟨r, s⟩
      cases r with
      | error err =>
        refine ⟨[Call.PostTopics
          { Challenge := cid, Type_ := "challenge", Value := topic.ValueString }], ?_⟩
        simp only [hp, Run.world, World.log]
      | ok t =>
        obtain ⟨rest, hrest⟩ := ih (acc ++ [topic]) diags
          (w.log (Call.PostTopics
            { Challenge := cid, Type_ := "challenge", Value := topic.ValueString }) s)
        refine ⟨Call.PostTopics
          { Challenge := cid, Type_ := "challenge", Value := topic.ValueString } :: rest, ?_⟩
        simp only [hp]
        rw [hrest]
        simp [World.log]

/-- Once the policy step passed and the requirements are encoded, the first call Create
issues is the challenge creation, whatever happens next. -/
theorem Create_calls_begin {σ : Type} (client : api.Client σ)
    (req : resource.CreateRequest) (resp : resource.Response) (w : World σ)
    (reqs : Option api.Requirements)
    (hdec : diag.Diagnostics.HasError
      (diag.Diagnostics.Append resp.Diagnostics req.Plan.diags) = false)
    (hcfg : diag.Diagnostics.HasError
      (challengeResource.Create.configurationChecks req.Plan.data
        (diag.Diagnostics.Append resp.Diagnostics req.Plan.diags)).2 = false)
    (hreq : encodeRequirements req.Plan.data.Requirements = Except.ok reqs) :
    ∃ rest, (challengeResource.Create client req resp w).world.calls
      = w.calls ++ Call.PostChallenges
          (challengeResource.Create.params
            (challengeResource.Create.configurationChecks req.Plan.data
              (diag.Diagnostics.Append resp.Diagnostics req.Plan.diags)).1 reqs) :: rest := by
  unfold challengeResource.Create
  simp only [hdec, hcfg, Bool.false_eq_true, if_false,
    Create.configurationChecks_Requirements, hreq]
  rcases hp : client.PostChallenges
      (challengeResource.Create.params
        (challengeResource.Create.configurationChecks req.Plan.data
          (diag.Diagnostics.Append resp.Diagnostics req.Plan.diags)).1 reqs) w.remote
    with ⟨r, s⟩
  cases r with
  | error err => exact ⟨[], by simp [Run.world, World.log]⟩
  | ok res =>
    simp only
    obtain ⟨rest1, h1⟩ := postTagsLoop_calls_prefix client
      (types.StringValue (strconv.Itoa res.ID))
      (fun err => "Unable to create tags, got error: " ++ err)
      (sliceElems (challengeResource.Create.configurationChecks req.Plan.data
        (diag.Diagnostics.Append resp.Diagnostics req.Plan.diags)).1.Tags) []
      (challengeResource.Create.configurationChecks req.Plan.data
        (diag.Diagnostics.Append resp.Diagnostics req.Plan.diags)).2
      (w.log (Call.PostChallenges
        (challengeResource.Create.params
          (challengeResource.Create.configurationChecks req.Plan.data
            (diag.Diagnostics.Append resp.Diagnostics req.Plan.diags)).1 reqs)) s)
    rcases hl : postTagsLoop client (types.StringValue (strconv.Itoa res.ID))
      (fun err => "Unable to create tags, got error: " ++ err)
      (sliceElems (challengeResource.Create.configurationChecks req.Plan.data
        (diag.Diagnostics.Append resp.Diagnostics req.Plan.diags)).1.Tags) []
      (challengeResource.Create.configurationChecks req.Plan.data
        (diag.Diagnostics.Append resp.Diagnostics req.Plan.diags)).2
      (w.log (Call.PostChallenges
        (challengeResource.Create.params
          (challengeResource.Create.configurationChecks req.Plan.data
            (diag.Diagnostics.Append resp.Diagnostics req.Plan.diags)).1 reqs)) s)
      with ⟨l, w2⟩ | ⟨msg, w2⟩
    · rw [hl] at h1
      simp only [Run.world, World.log] at h1
      cases l with
      | returned d => exact ⟨rest1, by simp [Run.world, h1]⟩
      | finished challTags =>
        simp only
        obtain ⟨rest2, h2⟩ := postTopicsLoop_calls_prefix client
          (types.StringValue (strconv.Itoa res.ID))
          (fun err => "Unable to create topic, got error: " ++ err)
          (sliceElems (challengeResource.Create.configurationChecks req.Plan.data
            (diag.Diagnostics.Append resp.Diagnostics req.Plan.diags)).1.Topics) []
          (challengeResource.Create.configurationChecks req.Plan.data
            (diag.Diagnostics.Append resp.Diagnostics req.Plan.diags)).2 w2
        rcases hl2 : postTopicsLoop client (types.StringValue (strconv.Itoa res.ID))
          (fun err => "Unable to create topic, got error: " ++ err)
          (sliceElems (challengeResource.Create.configurationChecks req.Plan.data
            (diag.Diagnostics.Append resp.Diagnostics req.Plan.diags)).1.Topics) []
          (challengeResource.Create.configurationChecks req.Plan.data
            (diag.Diagnostics.Append resp.Diagnostics req.Plan.diags)).2 w2
          with ⟨l2, w3⟩ | ⟨msg, w3⟩
        · rw [hl2] at h2
          simp only [Run.world] at h2
          cases l2 with
          | returned d => exact ⟨rest1 ++ rest2, by simp [Run.world, h2, h1]⟩
          | finished challTopics => exact ⟨rest1 ++ rest2, by simp [Run.world, h2, h1]⟩
        · rw [hl2] at h2
          simp only [Run.world] at h2
          exact ⟨rest1 ++ rest2, by simp [Run.world, h2, h1]⟩
    · rw [hl] at h1
      simp only [Run.world, World.log] at h1
      exact ⟨rest1, by simp [Run.world, h1]⟩

/-- Storing back the elements of a slice gives the slice, nil staying nil. -/
theorem keepNil_sliceElems (old : Option (List basetypes.StringValue)) :
    keepNil old ([] ++ sliceElems old) = old := by
  cases old <;> simp [keepNil, sliceElems]

/-- Create when every remote call succeeds: the response holds the diagnostics of the
policy step and the model written to the state, and the calls are the challenge creation,
then one creation per tag, then one per topic. -/
theorem Create_success {σ : Type} (client : api.Client σ)
    (req : resource.CreateRequest) (resp : resource.Response) (w : World σ)
    (reqs : Option api.Requirements) (res : api.Challenge) (s s1 s2 : σ)
    (hdec : diag.Diagnostics.HasError
      (diag.Diagnostics.Append resp.Diagnostics req.Plan.diags) = false)
    (hcfg : diag.Diagnostics.HasError
      (challengeResource.Create.configurationChecks req.Plan.data
        (diag.Diagnostics.Append resp.Diagnostics req.Plan.diags)).2 = false)
    (hreq : encodeRequirements req.Plan.data.Requirements = Except.ok reqs)
    (hpost : client.PostChallenges
      (challengeResource.Create.params
        (challengeResource.Create.configurationChecks req.Plan.data
          (diag.Diagnostics.Append resp.Diagnostics req.Plan.diags)).1 reqs) w.remote
      = (Except.ok res, s))
    (hlo : strconv.minInt ≤ res.ID) (hhi : res.ID ≤ strconv.maxInt)
    (htags : tagsCreated client res.ID (sliceElems req.Plan.data.Tags) s = some s1)
    (htopics : topicsCreated client res.ID (sliceElems req.Plan.data.Topics) s1 = some s2) :
    challengeResource.Create client req resp w
      = Run.ret
          { Diagnostics :=
              (challengeResource.Create.configurationChecks req.Plan.data
                (diag.Diagnostics.Append resp.Diagnostics req.Plan.diags)).2,
            State := some
              { (challengeResource.Create.configurationChecks req.Plan.data
                  (diag.Diagnostics.Append resp.Diagnostics req.Plan.diags)).1 with
                ID := types.StringValue (strconv.Itoa res.ID)
                Decay := utils.ToTFInt64 res.Decay
                Minimum := utils.ToTFInt64 res.Minimum } }
          { remote := s2,
            calls := w.calls ++
              Call.PostChallenges
                (challengeResource.Create.params
                  (challengeResource.Create.configurationChecks req.Plan.data
                    (diag.Diagnostics.Append resp.Diagnostics req.Plan.diags)).1 reqs)
              :: (tagCalls res.ID (sliceElems req.Plan.data.Tags)
                  ++ topicCalls res.ID (sliceElems req.Plan.data.Topics)) } := by
  have hid : utils.Atoi (types.StringValue (strconv.Itoa res.ID)).ValueString
      = Except.ok res.ID := utils.Atoi_Itoa res.ID hlo hhi
  unfold challengeResource.Create
  simp only [hdec, hcfg, Bool.false_eq_true, if_false, Create.configurationChecks_Tags,
    Create.configurationChecks_Topics, Create.configurationChecks_Requirements, hreq, hpost]
  rw [postTagsLoop_finished client _ _ res.ID hid _ [] _ _ s1 htags]
  simp only
  rw [postTopicsLoop_finished client _ _ res.ID hid _ [] _ _ s2 htopics]
  simp only [keepNil_sliceElems]
  simp [World.log, Create.configurationChecks_Tags, Create.configurationChecks_Topics]

/-- The policy step of Create on a dynamic challenge whose decay and minimum are not null. -/
theorem Create.configurationChecks_dynamic (data : challengeResourceModel)
    (diags : diag.Diagnostics) (htype : data.Type_ = types.StringValue "dynamic")
    (hdecay : data.Decay.IsNull = false) (hmin : data.Minimum.IsNull = false) :
    challengeResource.Create.configurationChecks data diags
      = (match data.Function with
          | basetypes.StringValue.known _ => data
          | _ => { data with Function := FunctionLogarithmic }, diags) := by
  have he : data.Type_.Equal (types.StringValue "dynamic") = true := by
    rw [htype]; decide
  unfold challengeResource.Create.configurationChecks
  simp only [he, hdecay, hmin, if_true, Bool.false_eq_true, if_false]
  cases hF : data.Function <;>
    simp [basetypes.StringValue.IsNull, basetypes.StringValue.IsUnknown]

/-- C6: for a dynamic challenge whose decay and minimum are both set, the policy step of
Create adds no diagnostic. Let `fn` be "logarithmic" when the function is unset (null or
unknown), or the given function when it is set: the model after the policy step is the
input with function `fn`; the first call Create issues is the create request, which
carries function `fn`; and when the remote calls all succeed Create writes to the state a
model whose function is `fn`. -/
theorem Create_dynamic_defaults_function {σ : Type} (client : api.Client σ)
    (req : resource.CreateRequest) (resp : resource.Response) (w : World σ) (fn : String)
    (hdec : diag.Diagnostics.HasError
      (diag.Diagnostics.Append resp.Diagnostics req.Plan.diags) = false)
    (htype : req.Plan.data.Type_ = types.StringValue "dynamic")
    (hdecay : ∃ v, req.Plan.data.Decay = types.Int64Value v)
    (hmin : ∃ v, req.Plan.data.Minimum = types.Int64Value v)
    (hfn : ((req.Plan.data.Function = types.StringNull ∨
              req.Plan.data.Function = types.StringUnknown) ∧ fn = "logarithmic") ∨
            req.Plan.data.Function = types.StringValue fn) :
    challengeResource.Create.configurationChecks req.Plan.data
        (diag.Diagnostics.Append resp.Diagnostics req.Plan.diags)
      = ({ req.Plan.data with Function := types.StringValue fn },
          diag.Diagnostics.Append resp.Diagnostics req.Plan.diags) ∧
    ∀ reqs, encodeRequirements req.Plan.data.Requirements = Except.ok reqs →
      (challengeResource.Create.params
        { req.Plan.data with Function := types.StringValue fn } reqs).Function = some fn ∧
      (∃ rest, (challengeResource.Create client req resp w).world.calls
        = w.calls ++ Call.PostChallenges
            (challengeResource.Create.params
              { req.Plan.data with Function := types.StringValue fn } reqs) :: rest) ∧
      ∀ res s s1 s2,
        client.PostChallenges
            (challengeResource.Create.params
              { req.Plan.data with Function := types.StringValue fn } reqs) w.remote
          = (Except.ok res, s) →
        strconv.minInt ≤ res.ID → res.ID ≤ strconv.maxInt →
        tagsCreated client res.ID (sliceElems req.Plan.data.Tags) s = some s1 →
        topicsCreated client res.ID (sliceElems req.Plan.data.Topics) s1 = some s2 →
        (challengeResource.Create client req resp w).result
          = some
              { Diagnostics := diag.Diagnostics.Append resp.Diagnostics req.Plan.diags,
                State := some
                  { req.Plan.data with
                    Function := types.StringValue fn
                    ID := types.StringValue (strconv.Itoa res.ID)
                    Decay := utils.ToTFInt64 res.Decay
                    Minimum := utils.ToTFInt64 res.Minimum } } := by
  obtain ⟨vd, hvd⟩ := hdecay
  obtain ⟨vm, hvm⟩ := hmin
  have hchk : challengeResource.Create.configurationChecks req.Plan.data
        (diag.Diagnostics.Append resp.Diagnostics req.Plan.diags)
      = ({ req.Plan.data with Function := types.StringValue fn },
          diag.Diagnostics.Append resp.Diagnostics req.Plan.diags) := by
    rw [Create.configurationChecks_dynamic _ _ htype (by rw [hvd]; rfl) (by rw [hvm]; rfl)]
    rcases hfn with ⟨hf | hf, hlog⟩ | hf
    · rw [hf, hlog]; rfl
    · rw [hf, hlog]; rfl
    · have hself : req.Plan.data
          = { req.Plan.data with Function := types.StringValue fn } := by
        rw [← hf]
      rw [hf]
      exact congrArg (fun d => (d, _)) hself
  have hcfg : diag.Diagnostics.HasError
      (challengeResource.Create.configurationChecks req.Plan.data
        (diag.Diagnostics.Append resp.Diagnostics req.Plan.diags)).2 = false := by
    rw [hchk]; exact hdec
  refine ⟨hchk, ?_⟩
  intro reqs hreq
  refine ⟨rfl, ?_, ?_⟩
  · have h := Create_calls_begin client req resp w reqs hdec hcfg hreq
    rw [hchk] at h
    exact h
  · intro res s s1 s2 hpost hlo hhi htags htopics
    have h := Create_success client req resp w reqs res s s1 s2 hdec hcfg hreq
      (by rw [hchk]; exact hpost) hlo hhi htags htopics
    rw [h, hchk]
    rfl

/-- Witness of C6: value 500, decay 10, minimum 50, function unset, on a remote that
refuses nothing: the model written to the state has function logarithmic. -/
theorem Create_dynamic_defaults_function_witness :
    (challengeResource.Create (remote.client remote.healthy)
        { Plan := { diags := [], data := sampleDynamic } } emptyResponse
        { remote := remote.empty, calls := [] }).result
      = some
          { Diagnostics := [],
            State := some
              { sampleDynamic with
                Function := types.StringValue "logarithmic"
                ID := types.StringValue "1"
                Decay := types.Int64Value 10
                Minimum := types.Int64Value 50 } } :=
  ((Create_dynamic_defaults_function (remote.client remote.healthy)
      { Plan := { diags := [], data := sampleDynamic } } emptyResponse
      { remote := remote.empty, calls := [] } "logarithmic" rfl rfl ⟨10, rfl⟩ ⟨50, rfl⟩
      (Or.inl ⟨Or.inr rfl, rfl⟩)).2 none rfl).2.2 _ _ _ _ rfl (by decide) (by decide) rfl rfl

/-- C5, amended: for a standard challenge the policy step of Create reports nothing and
changes no field but the function (decay and minimum stay as given); an unset function
(null or unknown) becomes null and the create request then carries no function; a known
function is kept and carried by the create request. The create request is the first call
Create issues once the plan decoded without error and the requirements are encoded. -/
theorem Create_standard_policy {σ : Type} (client : api.Client σ)
    (req : resource.CreateRequest) (resp : resource.Response) (w : World σ)
    (h : req.Plan.data.Type_ = types.StringValue "standard") :
    (challengeResource.Create.configurationChecks req.Plan.data
      (diag.Diagnostics.Append resp.Diagnostics req.Plan.diags)).2
      = diag.Diagnostics.Append resp.Diagnostics req.Plan.diags ∧
    (challengeResource.Create.configurationChecks req.Plan.data
      (diag.Diagnostics.Append resp.Diagnostics req.Plan.diags)).1
      = { req.Plan.data with
          Function := (challengeResource.Create.configurationChecks req.Plan.data
            (diag.Diagnostics.Append resp.Diagnostics req.Plan.diags)).1.Function } ∧
    ((req.Plan.data.Function = types.StringNull ∨
        req.Plan.data.Function = types.StringUnknown) →
      (challengeResource.Create.configurationChecks req.Plan.data
        (diag.Diagnostics.Append resp.Diagnostics req.Plan.diags)).1.Function
        = types.StringNull ∧
      ∀ reqs, (challengeResource.Create.params
        (challengeResource.Create.configurationChecks req.Plan.data
          (diag.Diagnostics.Append resp.Diagnostics req.Plan.diags)).1 reqs).Function = none) ∧
    (∀ v, req.Plan.data.Function = types.StringValue v →
      (challengeResource.Create.configurationChecks req.Plan.data
        (diag.Diagnostics.Append resp.Diagnostics req.Plan.diags)).1.Function
        = types.StringValue v ∧
      ∀ reqs, (challengeResource.Create.params
        (challengeResource.Create.configurationChecks req.Plan.data
          (diag.Diagnostics.Append resp.Diagnostics req.Plan.diags)).1 reqs).Function
        = some v) ∧
    (∀ reqs,
      diag.Diagnostics.HasError
        (diag.Diagnostics.Append resp.Diagnostics req.Plan.diags) = false →
      encodeRequirements req.Plan.data.Requirements = Except.ok reqs →
      ∃ rest, (challengeResource.Create client req resp w).world.calls
        = w.calls ++ Call.PostChallenges
            (challengeResource.Create.params
              (challengeResource.Create.configurationChecks req.Plan.data
                (diag.Diagnostics.Append resp.Diagnostics req.Plan.diags)).1 reqs) :: rest) := by
  have hne : req.Plan.data.Type_.Equal (types.StringValue "dynamic") = false := by
    rw [h]; decide
  have hchk := Create.configurationChecks_not_dynamic req.Plan.data
    (diag.Diagnostics.Append resp.Diagnostics req.Plan.diags) hne
  refine ⟨by rw [hchk], Create.configurationChecks_fields _ _, ?_, ?_, ?_⟩
  · intro hf
    rw [hchk]
    rcases hf with hf | hf <;> rw [hf] <;> exact ⟨rfl, fun _ => rfl⟩
  · intro v hf
    rw [hchk, hf]
    refine ⟨hf, ?_⟩
    intro reqs
    show req.Plan.data.Function.ValueStringPointer = some v
    rw [hf]
    rfl
  · intro reqs hdec hreq
    exact Create_calls_begin client req resp w reqs hdec (by rw [hchk]; exact hdec) hreq

/-- Witness of C5, amended: a standard challenge whose function is unknown. -/
theorem Create_standard_policy_witness :
    sampleStandard.Type_ = types.StringValue "standard" ∧
    (challengeResource.Create.configurationChecks sampleStandard []).1.Function
      = types.StringNull ∧
    (challengeResource.Create.params
      (challengeResource.Create.configurationChecks sampleStandard []).1 none).Function
      = none :=
  ⟨rfl,
    ((Create_standard_policy (remote.client remote.healthy)
      { Plan := { diags := [], data := sampleStandard } } emptyResponse
      { remote := remote.empty, calls := [] } rfl).2.2.1 (Or.inr rfl)).1,
    ((Create_standard_policy (remote.client remote.healthy)
      { Plan := { diags := [], data := sampleStandard } } emptyResponse
      { remote := remote.empty, calls := [] } rfl).2.2.1 (Or.inr rfl)).2 none⟩

/-! ## Update: theorems -/

theorem deleteTagsLoop_faithful {σ : Type} (client : api.Client σ)
    (tags : σ → List remote.Record) (hf : FaithfulTagStore client tags)
    (ID : basetypes.StringValue) (listed : List api.Tag) :
    ∀ (diags : diag.Diagnostics) (w : World σ),
      ∃ s1, deleteTagsLoop client ID listed diags w
          = Run.ret (Loop.finished ())
              { remote := s1, calls := w.calls ++ deleteTagCalls listed } ∧
        tags s1 = (tags w.remote).filter
          (fun r => decide (strconv.Itoa r.ID ∉ listed.map (fun t => strconv.Itoa t.ID))) := by
  induction listed with
  | nil =>
    intro diags w
    exact ⟨w.remote, by simp [deleteTagsLoop, deleteTagCalls], by simp⟩
  | cons tag rest ih =>
    intro diags w
    rcases hd : client.DeleteTag (strconv.Itoa tag.ID) w.remote with ⟨r, s⟩
    have hr : r = none := by
      have := hf.delete_result (strconv.Itoa tag.ID) w.remote
      rw [hd] at this
      exact this
    have hs : tags s = (tags w.remote).filter
        (fun r => decide (strconv.Itoa r.ID ≠ strconv.Itoa tag.ID)) := by
      have := hf.delete_state (strconv.Itoa tag.ID) w.remote
      rw [hd] at this
      exact this
    subst hr
    obtain ⟨s1, hrun, htags⟩ := ih diags (w.log (Call.DeleteTag (strconv.Itoa tag.ID)) s)
    refine ⟨s1, ?_, ?_⟩
    · unfold deleteTagsLoop
      simp only [hd]
      rw [hrun]
      simp [World.log, deleteTagCalls]
    · rw [htags]
      simp only [World.log, hs, List.filter_filter]
      congr 1
      funext r
      simp only [List.map_cons, List.mem_cons, not_or]
      by_cases h1 : strconv.Itoa r.ID = strconv.Itoa tag.ID <;>
        by_cases h2 : strconv.Itoa r.ID ∈ rest.map (fun t => strconv.Itoa t.ID) <;>
        simp [h1, h2]

/-- Over a faithful tag store every tag creation succeeds and adds one record of the
challenge per target, in order. -/
theorem tagsCreated_faithful {σ : Type} (client : api.Client σ)
    (tags : σ → List remote.Record) (hf : FaithfulTagStore client tags) (cid : Int)
    (targets : List basetypes.StringValue) :
    ∀ s, ∃ s1 recs, tagsCreated client cid targets s = some s1 ∧
      tags s1 = tags s ++ recs ∧
      recs.map (fun r => r.Value) = targets.map (fun t => t.ValueString) ∧
      ∀ r ∈ recs, r.Challenge = cid := by
  induction targets with
  | nil =>
    intro s
    exact ⟨s, [], rfl, by simp, rfl, by simp⟩
  | cons tag rest ih =>
    intro s
    rcases hp : client.PostTags { Challenge := cid, Value := tag.ValueString } s with ⟨r, s2⟩
    obtain ⟨t, ht⟩ := hf.create_result { Challenge := cid, Value := tag.ValueString } s
    obtain ⟨newID, hnew⟩ := hf.create_state { Challenge := cid, Value := tag.ValueString } s
    rw [hp] at ht hnew
    simp only at ht hnew
    subst ht
    obtain ⟨s1, recs, hrun, htags, hvals, hch⟩ := ih s2
    refine ⟨s1, { ID := newID, Challenge := cid, Value := tag.ValueString } :: recs, ?_, ?_, ?_, ?_⟩
    · unfold tagsCreated
      simp only [hp]
      exact hrun
    · rw [htags, hnew]
      simp
    · simp [hvals]
    · intro r hr
      rcases List.mem_cons.mp hr with h | h
      · rw [h]
      · exact hch r h

/-- Over a faithful tag store the topic deletion loop leaves the stored tags as they are
and only adds calls to the log. -/
theorem deleteTopicsLoop_preserves {σ : Type} (client : api.Client σ)
    (tags : σ → List remote.Record) (hf : FaithfulTagStore client tags)
    (ID : basetypes.StringValue) (listed : List api.Topic) :
    ∀ (diags : diag.Diagnostics) (w : World σ),
      tags (deleteTopicsLoop client ID listed diags w).world.remote = tags w.remote ∧
      ∃ rest, (deleteTopicsLoop client ID listed diags w).world.calls = w.calls ++ rest := by
  induction listed with
  | nil =>
    intro diags w
    exact ⟨rfl, [], by simp [deleteTopicsLoop, Run.world]⟩
  | cons topic tl ih =>
    intro diags w
    have hs := hf.deleteTopic_state { ID := strconv.Itoa topic.ID, Type_ := "challenge" } w.remote
    rcases hd : client.DeleteTopic { ID := strconv.Itoa topic.ID, Type_ := "challenge" } w.remote
      with ⟨r, s⟩
    rw [hd] at hs
    simp only at hs
    unfold deleteTopicsLoop
    simp only [hd]
    cases r with
    | some err =>
      refine ⟨hs, [Call.DeleteTopic { ID := strconv.Itoa topic.ID, Type_ := "challenge" }], ?_⟩
      simp only [Run.world, World.log]
    | none =>
      obtain ⟨h1, rest, h2⟩ := ih diags
        (w.log (Call.DeleteTopic { ID := strconv.Itoa topic.ID, Type_ := "challenge" }) s)
      refine ⟨?_, Call.DeleteTopic { ID := strconv.Itoa topic.ID, Type_ := "challenge" } :: rest,
        ?_⟩
      · simp only
        rw [h1]
        exact hs
      · simp only
        rw [h2]
        simp [World.log]

/-- Over a faithful tag store the topic creation loop leaves the stored tags as they
are. -/
theorem postTopicsLoop_preserves {σ : Type} (client : api.Client σ)
    (tags : σ → List remote.Record) (hf : FaithfulTagStore client tags)
    (ID : basetypes.StringValue) (detail : String → String)
    (topics : List basetypes.StringValue) :
    ∀ (acc : List basetypes.StringValue) (diags : diag.Diagnostics) (w : World σ),
      tags (postTopicsLoop client ID detail topics acc diags w).world.remote = tags w.remote := by
  induction topics with
  | nil =>
    intro acc diags w
    rfl
  | cons topic tl ih =>
    intro acc diags w
    unfold postTopicsLoop
    cases hid : utils.Atoi ID.ValueString with
    | error msg => rfl
    | ok cid =>
      have hs := hf.createTopic_state
        { Challenge := cid, Type_ := "challenge", Value := topic.ValueString } w.remote
      rcases hp : client.PostTopics
          { Challenge := cid, Type_ := "challenge", Value := topic.ValueString } w.remote
        with ⟨r, s⟩
      rw [hp] at hs
      simp only at hs
      simp only [hp]
      cases r with
      | error err => exact hs
      | ok t =>
        simp only
        rw [ih]
        exact hs

/-- The topics part of Update leaves the stored tags as they are, and starts by listing
the topics. -/
theorem Update.topics_preserves {σ : Type} (client : api.Client σ)
    (tags : σ → List remote.Record) (hf : FaithfulTagStore client tags)
    (resp : resource.Response) (data : challengeResourceModel) (diags : diag.Diagnostics)
    (id : Int) (w : World σ) :
    tags (challengeResource.Update.topics client resp data diags id w).world.remote
      = tags w.remote ∧
    ∃ rest, (challengeResource.Update.topics client resp data diags id w).world.calls
      = w.calls ++ Call.GetChallengeTopics id :: rest := by
  have hl := hf.listTopics_state id w.remote
  unfold challengeResource.Update.topics
  rcases hg : client.GetChallengeTopics id w.remote with ⟨r, s⟩
  rw [hg] at hl
  simp only at hl
  cases r with
  | error err => exact ⟨hl, [], by simp [Run.world, World.log]⟩
  | ok challTopics =>
    simp only
    obtain ⟨hd1, rest1, hd2⟩ := deleteTopicsLoop_preserves client tags hf data.ID challTopics
      diags (w.log (Call.GetChallengeTopics id) s)
    rcases hdl : deleteTopicsLoop client data.ID challTopics diags
      (w.log (Call.GetChallengeTopics id) s) with ⟨l, w1⟩ | ⟨msg, w1⟩
    · rw [hdl] at hd1 hd2
      simp only [Run.world, World.log] at hd1 hd2
      cases l with
      | returned d =>
        exact ⟨by simp only [Run.world, hd1, hl], rest1, by simp [Run.world, hd2]⟩
      | finished u =>
        simp only
        have hp1 := postTopicsLoop_preserves client tags hf data.ID
          (fun err => "Unable to create topic of challenge " ++ data.ID.ValueString
            ++ ", got error: " ++ err) (sliceElems data.Topics) [] diags w1
        obtain ⟨rest2, hp2⟩ := postTopicsLoop_calls_prefix client data.ID
          (fun err => "Unable to create topic of challenge " ++ data.ID.ValueString
            ++ ", got error: " ++ err) (sliceElems data.Topics) [] diags w1
        rcases hpl : postTopicsLoop client data.ID
          (fun err => "Unable to create topic of challenge " ++ data.ID.ValueString
            ++ ", got error: " ++ err) (sliceElems data.Topics) [] diags w1
          with ⟨l2, w2⟩ | ⟨msg, w2⟩
        · rw [hpl] at hp1 hp2
          simp only [Run.world] at hp1 hp2
          cases l2 with
          | returned d =>
            exact ⟨by simp only [Run.world, hp1, hd1, hl], rest1 ++ rest2,
              by simp [Run.world, hp2, hd2]⟩
          | finished topics =>
            simp only
            split <;>
              exact ⟨by simp only [Run.world, hp1, hd1, hl], rest1 ++ rest2,
                by simp [Run.world, hp2, hd2]⟩
        · rw [hpl] at hp1 hp2
          simp only [Run.world] at hp1 hp2
          exact ⟨by simp only [Run.world, hp1, hd1, hl], rest1 ++ rest2,
            by simp [Run.world, hp2, hd2]⟩
    · rw [hdl] at hd1 hd2
      simp only [Run.world, World.log] at hd1 hd2
      exact ⟨by simp only [Run.world, hd1, hl], rest1, by simp [Run.world, hd2]⟩

/-- The tags part of Update over a faithful tag store: it lists the tags of the challenge,
deletes each listed tag, creates each target tag, and goes on with the topics part; the
tags then stored for the challenge carry the target values, in order. -/
theorem Update.tags_faithful {σ : Type} (client : api.Client σ)
    (tags : σ → List remote.Record) (hf : FaithfulTagStore client tags)
    (resp : resource.Response) (data : challengeResourceModel) (diags : diag.Diagnostics)
    (id : Int) (w : World σ) (hid : utils.Atoi data.ID.ValueString = Except.ok id) :
    ∃ data1 s4,
      challengeResource.Update.tags client resp data diags w
        = challengeResource.Update.topics client resp data1 diags id
            { remote := s4,
              calls := w.calls ++ Call.GetChallengeTags id ::
                (deleteTagCalls (((tags w.remote).filter
                    (fun r => decide (r.Challenge = id))).map remote.Record.toTag)
                  ++ tagCalls id (sliceElems data.Tags)) } ∧
      ((tags s4).filter (fun r => decide (r.Challenge = id))).map (fun r => r.Value)
        = (sliceElems data.Tags).map (fun t => t.ValueString) := by
  have hlr := hf.list_result id w.remote
  have hls := hf.list_state id w.remote
  rcases hg : client.GetChallengeTags id w.remote with ⟨r, s⟩
  rw [hg] at hlr hls
  simp only at hlr hls
  subst hlr
  obtain ⟨s1, hdel, hdtags⟩ := deleteTagsLoop_faithful client tags hf data.ID
    (((tags w.remote).filter (fun r => decide (r.Challenge = id))).map remote.Record.toTag)
    diags (w.log (Call.GetChallengeTags id) s)
  obtain ⟨s2, recs, hcr, hctags, hvals, hch⟩ :=
    tagsCreated_faithful client tags hf id (sliceElems data.Tags) s1
  have hpost := postTagsLoop_finished client data.ID
    (fun err => "Unable to create tag of challenge " ++ data.ID.ValueString
      ++ ", got error: " ++ err) id hid (sliceElems data.Tags) [] diags
    { remote := s1,
      calls := (w.log (Call.GetChallengeTags id) s).calls ++
        deleteTagCalls (((tags w.remote).filter
          (fun r => decide (r.Challenge = id))).map remote.Record.toTag) } s2 hcr
  refine ⟨{ data with Tags := keepNil data.Tags ([] ++ sliceElems data.Tags) }, s2, ?_, ?_⟩
  · unfold challengeResource.Update.tags
    simp only [hid, hg]
    rw [hdel]
    simp only
    rw [hpost]
    simp [World.log]
  · rw [hctags, List.filter_append]
    have hnone : (tags s1).filter (fun r => decide (r.Challenge = id)) = [] := by
      rw [List.filter_eq_nil_iff]
      intro r hr hrc
      rw [hdtags] at hr
      simp only [World.log, hls, List.mem_filter, decide_eq_true_eq] at hr hrc
      apply hr.2
      rw [List.mem_map]
      refine ⟨remote.Record.toTag r, ?_, rfl⟩
      rw [List.mem_map]
      exact ⟨r, by simp [List.mem_filter, hr.1, hrc], rfl⟩
    have hall : recs.filter (fun r => decide (r.Challenge = id)) = recs := by
      rw [List.filter_eq_self]
      intro r hr
      simp [hch r hr]
    rw [hnone, hall, List.nil_append, hvals]

/-- The policy step of Update changes no field but the function. -/
theorem Update.checks_fields (data : challengeResourceModel)
    (diags : diag.Diagnostics) :
    (challengeResource.Update.configurationChecks data diags).1
      = { data with
          Function := (challengeResource.Update.configurationChecks data diags).1.Function } := by
  unfold challengeResource.Update.configurationChecks
  by_cases h1 : data.Type_.Equal (types.StringValue "dynamic") = true <;>
    by_cases h2 : data.Function.IsNull = true <;>
    simp only [h1, h2, if_true, if_false, Bool.false_eq_true]

/-- The policy step of Update leaves the id as it is. -/
theorem Update.checks_ID (data : challengeResourceModel)
    (diags : diag.Diagnostics) :
    (challengeResource.Update.configurationChecks data diags).1.ID = data.ID := by
  rw [Update.checks_fields]

/-- The policy step of Update leaves the tags as they are. -/
theorem Update.checks_Tags (data : challengeResourceModel)
    (diags : diag.Diagnostics) :
    (challengeResource.Update.configurationChecks data diags).1.Tags = data.Tags := by
  rw [Update.checks_fields]

/-- An Update that succeeded went through its policy step and its patch call, and then
ran its tags part. -/
theorem Update_succeeded_patch {σ : Type} (client : api.Client σ)
    (req : resource.UpdateRequest) (resp : resource.Response) (w : World σ) (id : Int)
    (hid : utils.Atoi req.Plan.data.ID.ValueString = Except.ok id)
    (hok : (challengeResource.Update client req resp w).succeeded = true) :
    ∃ data1 diags1 p,
      data1.ID = req.Plan.data.ID ∧ data1.Tags = req.Plan.data.Tags ∧
      challengeResource.Update client req resp w
        = challengeResource.Update.tags client resp data1 diags1
            (w.log (Call.PatchChallenge id p) (client.PatchChallenge id p w.remote).2) := by
  unfold challengeResource.Update at hok ⊢
  by_cases hdec : diag.Diagnostics.HasError
      (diag.Diagnostics.Append resp.Diagnostics req.Plan.diags) = true
  · simp [hdec, Run.succeeded] at hok
  · by_cases hcfg : diag.Diagnostics.HasError
        (challengeResource.Update.configurationChecks req.Plan.data
          (diag.Diagnostics.Append resp.Diagnostics req.Plan.diags)).2 = true
    · simp [hdec, hcfg, Run.succeeded] at hok
    · simp only [hdec, hcfg, Bool.false_eq_true, if_false, Update.checks_ID,
        hid] at hok ⊢
      cases hreq : encodeRequirements
          (challengeResource.Update.configurationChecks req.Plan.data
            (diag.Diagnostics.Append resp.Diagnostics req.Plan.diags)).1.Requirements with
      | error msg =>
        rw [hreq] at hok
        simp [Run.succeeded] at hok
      | ok reqs =>
        rw [hreq] at hok
        simp only at hok ⊢
        rcases hp : client.PatchChallenge id
            (challengeResource.Update.params
              (challengeResource.Update.configurationChecks req.Plan.data
                (diag.Diagnostics.Append resp.Diagnostics req.Plan.diags)).1 reqs) w.remote
          with ⟨r, s⟩
        rw [hp] at hok
        cases r with
        | error err =>
          simp [Run.succeeded, diag.HasError_AddError] at hok
        | ok c =>
          exact ⟨_, _, challengeResource.Update.params
              (challengeResource.Update.configurationChecks req.Plan.data
                (diag.Diagnostics.Append resp.Diagnostics req.Plan.diags)).1 reqs,
            Update.checks_ID _ _, Update.checks_Tags _ _,
            by rw [hp]⟩

/-- C9: over a remote that is a faithful tag store, after a successful Update of the
challenge `id` the values of the tags stored for that challenge are exactly the values of
the target list, in input order; and the calls of Update are the patch, then the listing
of the tags, one deletion per tag record stored before for the challenge, one creation
per target tag in input order, and then the topics part. -/
theorem Update_replaces_tags {σ : Type} (client : api.Client σ)
    (tags : σ → List remote.Record) (hf : FaithfulTagStore client tags)
    (req : resource.UpdateRequest) (resp : resource.Response) (w : World σ) (id : Int)
    (hid : utils.Atoi req.Plan.data.ID.ValueString = Except.ok id)
    (hok : (challengeResource.Update client req resp w).succeeded = true) :
    ((tags (challengeResource.Update client req resp w).world.remote).filter
        (fun r => decide (r.Challenge = id))).map (fun r => r.Value)
      = (sliceElems req.Plan.data.Tags).map (fun t => t.ValueString) ∧
    ∃ p rest, (challengeResource.Update client req resp w).world.calls
      = w.calls ++ Call.PatchChallenge id p :: Call.GetChallengeTags id ::
          (deleteTagCalls (((tags w.remote).filter
              (fun r => decide (r.Challenge = id))).map remote.Record.toTag)
            ++ tagCalls id (sliceElems req.Plan.data.Tags)
            ++ Call.GetChallengeTopics id :: rest) := by
  obtain ⟨data1, diags1, p, hID, hTags, hU⟩ :=
    Update_succeeded_patch client req resp w id hid hok
  obtain ⟨data2, s4, hT, hvals⟩ := Update.tags_faithful client tags hf resp data1 diags1 id
    (w.log (Call.PatchChallenge id p) (client.PatchChallenge id p w.remote).2)
    (by rw [hID]; exact hid)
  obtain ⟨hrem, rest, hcalls⟩ := Update.topics_preserves client tags hf resp data2 diags1 id
    { remote := s4,
      calls := (w.log (Call.PatchChallenge id p) (client.PatchChallenge id p w.remote).2).calls
        ++ Call.GetChallengeTags id ::
          (deleteTagCalls (((tags (w.log (Call.PatchChallenge id p)
              (client.PatchChallenge id p w.remote).2).remote).filter
              (fun r => decide (r.Challenge = id))).map remote.Record.toTag)
            ++ tagCalls id (sliceElems data1.Tags)) }
  rw [hU, hT]
  constructor
  · rw [hrem, hvals, hTags]
  · refine ⟨p, rest, ?_⟩
    rw [hcalls]
    simp [World.log, hf.patch_state, hTags]

/-- The reference remote that refuses nothing is a faithful tag store. -/
theorem remote.healthy_faithful :
    FaithfulTagStore (remote.client remote.healthy) (fun s => s.tags) where
  list_result := fun _ _ => rfl
  list_state := fun _ _ => rfl
  delete_result := fun _ _ => rfl
  delete_state := fun _ _ => rfl
  create_result := fun p s => ⟨{ ID := s.nextID, Value := p.Value }, rfl⟩
  create_state := fun _ s => ⟨s.nextID, rfl⟩
  patch_state := fun id p s => by
    unfold remote.client
    simp only [remote.healthy]
    split <;> rfl
  listTopics_state := fun _ _ => rfl
  deleteTopic_state := fun _ _ => rfl
  createTopic_state := fun _ _ => rfl

/-- Witness of C9: stored tags web and easy, target tags web and pwn: the tags stored
after Update are web and pwn. -/
theorem Update_replaces_tags_witness :
    ((challengeResource.Update (remote.client remote.healthy)
        { Plan := { diags := [], data := sampleTarget },
          State := { diags := [], data := sampleStored } } emptyResponse
        { remote := sampleTaggedRemote, calls := [] }).world.remote.tags.filter
        (fun r => decide (r.Challenge = 1))).map (fun r => r.Value) = ["web", "pwn"] ∧
    (challengeResource.Update (remote.client remote.healthy)
        { Plan := { diags := [], data := sampleTarget },
          State := { diags := [], data := sampleStored } } emptyResponse
        { remote := sampleTaggedRemote, calls := [] }).world.remote.tags
      = [{ ID := 4, Challenge := 1, Value := "web" }, { ID := 5, Challenge := 1, Value := "pwn" }] :=
  ⟨(Update_replaces_tags (remote.client remote.healthy) (fun s => s.tags)
      remote.healthy_faithful
      { Plan := { diags := [], data := sampleTarget },
        State := { diags := [], data := sampleStored } } emptyResponse
      { remote := sampleTaggedRemote, calls := [] } 1 rfl rfl).1, rfl⟩

/-! ## Requirements mapping: theorems -/

/-- Parsing then printing gives back a prerequisite that is the canonical decimal string
of a Go `int`. -/
theorem prerequisite_roundtrip (p : basetypes.StringValue)
    (hp : ∃ n : Int, strconv.minInt ≤ n ∧ n ≤ strconv.maxInt ∧
      p = types.StringValue (strconv.Itoa n)) :
    types.StringValue (strconv.Itoa (strconv.Atoi p.ValueString).1) = p := by
  obtain ⟨n, hlo, hhi, rfl⟩ := hp
  show types.StringValue (strconv.Itoa (strconv.Atoi (strconv.Itoa n)).1) = _
  rw [strconv.Atoi_of_Itoa n hlo hhi]

/-- The same, for a whole list of prerequisites. -/
theorem prerequisites_roundtrip (ps : List basetypes.StringValue)
    (hp : ∀ p ∈ ps, ∃ n : Int, strconv.minInt ≤ n ∧ n ≤ strconv.maxInt ∧
      p = types.StringValue (strconv.Itoa n)) :
    (ps.map (fun preq => (strconv.Atoi preq.ValueString).1)).map
        (fun req => types.StringValue (strconv.Itoa req)) = ps := by
  induction ps with
  | nil => rfl
  | cons p rest ih =>
    simp only [List.map_cons]
    rw [prerequisite_roundtrip p (hp p (List.mem_cons_self p rest)),
      ih (fun q hq => hp q (List.mem_cons_of_mem p hq))]

/-- C11: for requirements whose behavior is hidden or anonymized and whose prerequisites
are each the canonical decimal string of an integer id (a Go `int`), the encoding that
Create and Update send exists, Read decodes it, and the decoded requirements carry the
same behavior and the same prerequisites, element for element (as a non-nil list). -/
theorem requirements_roundtrip (r : RequirementsSubresourceModel)
    (hb : r.Behavior = BehaviorHidden ∨ r.Behavior = BehaviorAnonymized)
    (hp : ∀ p ∈ sliceElems r.Prerequisites,
      ∃ n : Int, strconv.minInt ≤ n ∧ n ≤ strconv.maxInt ∧
        p = types.StringValue (strconv.Itoa n)) :
    ∃ enc dec, encodeRequirements (some r) = Except.ok (some enc) ∧
      enc.Prerequisites
        = (sliceElems r.Prerequisites).map (fun preq => (strconv.Atoi preq.ValueString).1) ∧
      decodeRequirements (some enc) = Except.ok (some dec) ∧
      dec.Behavior = r.Behavior ∧
      dec.Prerequisites = some (sliceElems r.Prerequisites) := by
  have hps := prerequisites_roundtrip (sliceElems r.Prerequisites) hp
  rcases hb with hb | hb
  · refine ⟨{ Anonymize := none,
              Prerequisites := (sliceElems r.Prerequisites).map
                (fun preq => (strconv.Atoi preq.ValueString).1) },
            { Behavior := BehaviorHidden, Prerequisites := some (sliceElems r.Prerequisites) },
            ?_, rfl, ?_, hb.symm, rfl⟩
    · simp only [encodeRequirements, hb]
      rfl
    · unfold decodeRequirements
      simp only [FromAnon, hps]
  · refine ⟨{ Anonymize := some true,
              Prerequisites := (sliceElems r.Prerequisites).map
                (fun preq => (strconv.Atoi preq.ValueString).1) },
            { Behavior := BehaviorAnonymized,
              Prerequisites := some (sliceElems r.Prerequisites) },
            ?_, rfl, ?_, hb.symm, rfl⟩
    · simp only [encodeRequirements, hb]
      rfl
    · unfold decodeRequirements
      simp only [FromAnon, hps]

/-- Witness of C11: behavior anonymized, prerequisites "3" and "5". -/
theorem requirements_roundtrip_witness :
    ∃ enc dec, encodeRequirements (some sampleRequirements) = Except.ok (some enc) ∧
      enc.Prerequisites = [3, 5] ∧
      decodeRequirements (some enc) = Except.ok (some dec) ∧
      dec.Behavior = BehaviorAnonymized ∧
      dec.Prerequisites = some [types.StringValue "3", types.StringValue "5"] :=
  requirements_roundtrip sampleRequirements (Or.inr rfl) (by
    intro p hmem
    simp only [sampleRequirements, sliceElems, List.mem_cons, List.mem_singleton,
      List.not_mem_nil, or_false] at hmem
    rcases hmem with h | h
    · exact ⟨3, by decide, by decide, by rw [h]; decide⟩
    · exact ⟨5, by decide, by decide, by rw [h]; decide⟩)

/-! ## Read of a missing challenge: theorems -/

/-- C12, as stated, fails: the state model with id 1 is read once on a remote without
any challenge (the entity fetch fails because the challenge does not exist) and once on a
remote that holds challenge 1 and refuses the fetch (another reason), the error carrying
the same text. The outcome is the same both times, in `challengeResourceModel.Read` (model,
diagnostics of the callee, calls issued) as well as in `challengeResource.Read`
(response: diagnostics and state written): nothing marks the missing challenge. -/
theorem Read_missing_same_outcome :
    remote.empty.challenges.find? (fun c => decide (c.ID = 1)) = none ∧
    ((remote.client remote.healthy).GetChallenge 1 remote.empty).1
      = Except.error "not found" ∧
    (sampleRemote.challenges.find? (fun c => decide (c.ID = 1))).isSome = true ∧
    ((remote.client (remote.refusingWith (Call.GetChallenge 1) "not found")).GetChallenge 1
        sampleRemote).1
      = Except.error "not found" ∧
    (challengeResourceModel.Read sampleStored (remote.client remote.healthy) []
        { remote := remote.empty, calls := [] }).result
      = (challengeResourceModel.Read sampleStored
          (remote.client (remote.refusingWith (Call.GetChallenge 1) "not found")) []
          { remote := sampleRemote, calls := [] }).result ∧
    (challengeResourceModel.Read sampleStored (remote.client remote.healthy) []
        { remote := remote.empty, calls := [] }).world.calls
      = (challengeResourceModel.Read sampleStored
          (remote.client (remote.refusingWith (Call.GetChallenge 1) "not found")) []
          { remote := sampleRemote, calls := [] }).world.calls ∧
    (challengeResource.Read (remote.client remote.healthy)
        { State := { diags := [], data := sampleStored } } emptyResponse
        { remote := remote.empty, calls := [] }).result
      = (challengeResource.Read
          (remote.client (remote.refusingWith (Call.GetChallenge 1) "not found"))
          { State := { diags := [], data := sampleStored } } emptyResponse
          { remote := sampleRemote, calls := [] }).result := by
  refine ⟨rfl, rfl, rfl, rfl, rfl, rfl, rfl⟩

/-- C12, amended: when the entity fetch of Read fails, whatever the reason (a missing
challenge or anything else), `challengeResourceModel.Read` takes one and the same path:
it issues no further fetch, leaves the model as it was, and adds to its diagnostics one
"Client Error" whose detail holds the id and the text of the error. The outcome depends
on the failure through that text only: on any other remote where the fetch fails with the
same text, the model and the diagnostics returned are the same. -/
theorem Read_entity_fetch_failure {σ : Type} (chall : challengeResourceModel)
    (client : api.Client σ) (diags : diag.Diagnostics) (w : World σ) (id : Int)
    (err : String) (s : σ)
    (hid : utils.Atoi chall.ID.ValueString = Except.ok id)
    (hget : client.GetChallenge id w.remote = (Except.error err, s)) :
    challengeResourceModel.Read chall client diags w
      = Run.ret
          (chall, diag.Diagnostics.AddError diags "Client Error"
            ("Unable to read challenge " ++ chall.ID.ValueString ++ ", got error: " ++ err))
          { remote := s, calls := w.calls ++ [Call.GetChallenge id] } ∧
    ∀ (τ : Type) (client2 : api.Client τ) (w2 : World τ) (s2 : τ),
      client2.GetChallenge id w2.remote = (Except.error err, s2) →
      (challengeResourceModel.Read chall client2 diags w2).result
        = (challengeResourceModel.Read chall client diags w).result := by
  constructor
  · unfold challengeResourceModel.Read
    simp only [hid, hget]
    rfl
  · intro τ client2 w2 s2 hget2
    unfold challengeResourceModel.Read
    simp only [hid, hget, hget2]
    rfl

/-- Witness of C12, amended: the state model with id 1 on a remote without any
challenge. -/
theorem Read_entity_fetch_failure_witness :
    challengeResourceModel.Read sampleStored (remote.client remote.healthy) []
        { remote := remote.empty, calls := [] }
      = Run.ret
          (sampleStored,
            [diag.NewErrorDiagnostic "Client Error"
              "Unable to read challenge 1, got error: not found"])
          { remote := remote.empty, calls := [Call.GetChallenge 1] } :=
  (Read_entity_fetch_failure sampleStored (remote.client remote.healthy) []
    { remote := remote.empty, calls := [] } 1 "not found" remote.empty rfl rfl).1
